import Mathlib

/-!
Shallow embedding of the BasicLuaParser front-end pipeline (a lexer, a
recursive-descent parser and a semantic analyzer for a small Lua subset),
translated from `lexer.py`, `syntaxtree.py`, `parser.py` and `semantic.py`,
together with theorems checking the design document's claims about it.

Machine strings are modelled as `List Char` for the lexer's forward scan,
`String` for token payloads; Python's unbounded recursion is modelled with an
explicit fuel argument (each recursive call consumes one unit, and the fuel
chosen by the top-level wrappers is ample for every input considered, since
every recursive call of the source either consumes input or descends into a
strictly smaller subterm).  Python `None`-able results are `Option`,
exceptions are `Except`.
-/

namespace BasicLua

/-! ## Token model (`lexer.py`, class `TokenType` and `Token`) -/

/-- The closed token-kind enumeration of `lexer.py`. -/
inductive TokenType where
  | IDENTIFIER
  | NUMBER
  | STRING
  | FUNCTION
  | IF
  | THEN
  | ELSE
  | END
  | WHILE
  | DO
  | RETURN
  | LOCAL
  | ASSIGN
  | PLUS
  | MINUS
  | STAR
  | SLASH
  | LPAREN
  | RPAREN
  | COMMA
  | SEMICOLON
  | GREATER
  | GREATER_EQUAL
  | LESS
  | LESS_EQUAL
  | EQUAL_EQUAL
  | DOTDOT
  | EOF
deriving DecidableEq, Repr

/-- A token's literal payload: Python stores either the sliced source text
(a `str`), an `int`, or a `float` for decimal numerals.  The float case keeps
the numeral's source text; no claim inspects the floating-point value. -/
inductive LitVal where
  | str (s : String)
  | intVal (n : Int)
  | floatVal (text : String)
deriving DecidableEq, Repr

/-- Class `Token`: kind, optional value, line and column.  The column is an
`Int` because `add_token` computes it by subtraction (`self.column -
(self.current - self.start)`), which Python lets go to zero or below. -/
structure Token where
  type : TokenType
  value : Option LitVal
  line : Nat
  column : Int
deriving DecidableEq, Repr

/-- The two non-fatal lexical diagnostics printed by `Lexer.scan_token` and
`Lexer.string`. -/
inductive Diag where
  | unexpectedChar (c : Char) (line : Nat) (column : Nat)
  | unterminatedString (line : Nat)
deriving DecidableEq, Repr

/-! ## Lexer (`lexer.py`, class `Lexer`)

The Python lexer walks the source with an index `current` plus `line` and
`column` counters; `column` is incremented by `advance`/`match` and reset to 1
on a newline.  Here the not-yet-scanned suffix is passed as a `List Char`,
and each helper returns the consumed data together with the remaining suffix
and the updated counters.  Character classes follow Python's `str` predicates
restricted to ASCII input (the `Char.isAlpha`/`isDigit`/`isAlphanum` of Lean
agree with Python's on ASCII). -/

/-- Python's `str.isspace` on the usual ASCII whitespace. -/
def isSpaceCh (c : Char) : Bool :=
  c == ' ' || c == '\t' || c == '\n' || c == '\r' || c == '\x0b' || c == '\x0c'

/-- Take the longest prefix satisfying `p`; mirrors the lexer's
`while self.peek() ... : self.advance()` loops. -/
def spanP (p : Char → Bool) : List Char → List Char × List Char
  | [] => ([], [])
  | c :: cs =>
    if p c then
      let r := spanP p cs
      (c :: r.1, r.2)
    else ([], c :: cs)

/-- Keyword table of `Lexer.__init__` (`self.keywords.get(text, IDENTIFIER)`). -/
def keywordType (s : String) : TokenType :=
  if s = "function" then .FUNCTION
  else if s = "if" then .IF
  else if s = "then" then .THEN
  else if s = "else" then .ELSE
  else if s = "end" then .END
  else if s = "while" then .WHILE
  else if s = "do" then .DO
  else if s = "return" then .RETURN
  else if s = "local" then .LOCAL
  else .IDENTIFIER

/-- Python's `int(...)` on a string of decimal digits. -/
def digitsVal (l : List Char) : Nat :=
  l.foldl (fun a c => 10 * a + (c.toNat - 48)) 0

/-- Body of `Lexer.string` after the opening quote: consume characters up to
the closing quote, updating `line`/`column` as the source does (on a newline:
`line += 1; column = 1` followed by `advance`'s `column += 1`).  Returns the
content when terminated (`none` when the closing quote is missing), the
remaining input and the final counters. -/
def lexStr (q : Char) : List Char → Nat → Nat → Option (List Char) × List Char × Nat × Nat
  | [], line, col => (none, [], line, col)
  | c :: cs, line, col =>
    if c = q then (some [], cs, line, col + 1)
    else
      let line' := if c = '\n' then line + 1 else line
      let col' := if c = '\n' then 2 else col + 1
      let r := lexStr q cs line' col'
      (r.1.map (fun content => c :: content), r.2.1, r.2.2.1, r.2.2.2)

/-- Result of one `scan_token` call: at most one token, at most one printed
diagnostic, the unconsumed suffix, and the updated counters. -/
structure StepOut where
  tok : Option Token
  diag : Option Diag
  rest : List Char
  line : Nat
  col : Nat
deriving Repr

/-- The token record built by `Lexer.add_token`: `colAfter` is the column
counter after the token's last character, `len` the number of characters
consumed (`current - start`), so the recorded column is their difference. -/
def mkTok (ty : TokenType) (v : Option LitVal) (line : Nat) (colAfter : Nat) (len : Nat) : Token :=
  { type := ty, value := v, line := line, column := (colAfter : Int) - (len : Int) }

/-- `Lexer.peek`: the next unconsumed character, the null character at end
of input. -/
def peekCh : List Char → Char
  | [] => '\x00'
  | c :: _ => c

/-- The suffix after one `advance`. -/
def tailCh : List Char → List Char
  | [] => []
  | _ :: cs => cs

/-- `Lexer.identifier`: extend with alphanumerics and underscores, classify
through the keyword table.  `c` is the already-consumed first character and
`col` the column counter after it. -/
def identifierTok (c : Char) (cs : List Char) (line : Nat) (col : Nat) : StepOut :=
  let r := spanP (fun ch => ch.isAlphanum || ch == '_') cs
  let text := String.mk (c :: r.1)
  let col' := col + r.1.length
  ⟨some (mkTok (keywordType text) (some (.str text)) line col' (c :: r.1).length),
    none, r.2, line, col'⟩

/-- `Lexer.number`: digits, then optionally a dot followed by at least one
digit; the literal value is an integer unless a fractional part was taken. -/
def numberTok (c : Char) (cs : List Char) (line : Nat) (col : Nat) : StepOut :=
  let r := spanP Char.isDigit cs
  let intPart := c :: r.1
  if peekCh r.2 = '.' ∧ (peekCh (tailCh r.2)).isDigit then
    let r2 := spanP Char.isDigit (tailCh r.2)
    let text := intPart ++ '.' :: r2.1
    let col' := col + r.1.length + 1 + r2.1.length
    ⟨some (mkTok .NUMBER (some (.floatVal (String.mk text))) line col' text.length),
      none, r2.2, line, col'⟩
  else
    let col' := col + r.1.length
    ⟨some (mkTok .NUMBER (some (.intVal (digitsVal intPart))) line col' intPart.length),
      none, r.2, line, col'⟩

/-- `Lexer.string` as a whole step: scan to the closing quote (`lexStr`),
then either report the unterminated string or add the token, whose recorded
position uses the counters after the closing quote and the consumed length
(content plus both quotes). -/
def stringTok (q : Char) (cs : List Char) (line : Nat) (col : Nat) : StepOut :=
  match lexStr q cs line col with
  | (none, rest, line', col') =>
    ⟨none, some (.unterminatedString line'), rest, line', col'⟩
  | (some content, rest, line', col') =>
    ⟨some (mkTok .STRING (some (.str (String.mk content))) line' col' (content.length + 2)),
      none, rest, line', col'⟩

/-- The `-` branch of `scan_token`: a second `-` starts a comment consumed
through (not including) the next newline; otherwise a minus token. -/
def minusTok (cs : List Char) (line : Nat) (col : Nat) : StepOut :=
  if peekCh cs = '-' then
    let r := spanP (fun ch => ch != '\n') cs
    ⟨none, none, r.2, line, col + r.1.length⟩
  else ⟨some (mkTok .MINUS (some (.str "-")) line col 1), none, cs, line, col⟩

/-- One `Lexer.scan_token` step.  `c` is the character just consumed by the
leading `advance()` and `col` the column counter after that `advance`. -/
def step (c : Char) (cs : List Char) (line : Nat) (col : Nat) : StepOut :=
  if isSpaceCh c then
    if c = '\n' then ⟨none, none, cs, line + 1, 1⟩ else ⟨none, none, cs, line, col⟩
  else if c.isAlpha || c == '_' then
    identifierTok c cs line col
  else if c.isDigit then
    numberTok c cs line col
  else if c == '"' || c == '\'' then
    stringTok c cs line col
  else if c = '=' then
    if peekCh cs = '=' then
      ⟨some (mkTok .EQUAL_EQUAL (some (.str "==")) line (col + 1) 2), none, tailCh cs, line, col + 1⟩
    else ⟨some (mkTok .ASSIGN (some (.str "=")) line col 1), none, cs, line, col⟩
  else if c = '>' then
    if peekCh cs = '=' then
      ⟨some (mkTok .GREATER_EQUAL (some (.str ">=")) line (col + 1) 2), none, tailCh cs, line, col + 1⟩
    else ⟨some (mkTok .GREATER (some (.str ">")) line col 1), none, cs, line, col⟩
  else if c = '<' then
    if peekCh cs = '=' then
      ⟨some (mkTok .LESS_EQUAL (some (.str "<=")) line (col + 1) 2), none, tailCh cs, line, col + 1⟩
    else ⟨some (mkTok .LESS (some (.str "<")) line col 1), none, cs, line, col⟩
  else if c = '+' then
    ⟨some (mkTok .PLUS (some (.str "+")) line col 1), none, cs, line, col⟩
  else if c = '-' then
    minusTok cs line col
  else if c = '*' then
    ⟨some (mkTok .STAR (some (.str "*")) line col 1), none, cs, line, col⟩
  else if c = '/' then
    ⟨some (mkTok .SLASH (some (.str "/")) line col 1), none, cs, line, col⟩
  else if c = '(' then
    ⟨some (mkTok .LPAREN (some (.str "(")) line col 1), none, cs, line, col⟩
  else if c = ')' then
    ⟨some (mkTok .RPAREN (some (.str ")")) line col 1), none, cs, line, col⟩
  else if c = ',' then
    ⟨some (mkTok .COMMA (some (.str ",")) line col 1), none, cs, line, col⟩
  else if c = ';' then
    ⟨some (mkTok .SEMICOLON (some (.str ";")) line col 1), none, cs, line, col⟩
  else if c = '.' then
    if peekCh cs = '.' then
      ⟨some (mkTok .DOTDOT (some (.str "..")) line (col + 1) 2), none, tailCh cs, line, col + 1⟩
    else ⟨none, some (.unexpectedChar c line col), cs, line, col⟩
  else
    ⟨none, some (.unexpectedChar c line col), cs, line, col⟩

/-- The `Lexer.tokenize` loop: scan tokens until the input is exhausted, then
append the single end-of-input token at the final counters.  The fuel bounds
the number of scan steps; `tokenize` supplies more fuel than there are
characters, which is enough because every step consumes at least one
character (`step_rest_length_le` below). -/
def lexLoop : Nat → List Char → Nat → Nat → List Token × List Diag
  | 0, _, line, col => ([{ type := .EOF, value := none, line := line, column := (col : Int) }], [])
  | _ + 1, [], line, col => ([{ type := .EOF, value := none, line := line, column := (col : Int) }], [])
  | fuel + 1, c :: cs, line, col =>
    let r := step c cs line (col + 1)
    let rec' := lexLoop fuel r.rest r.line r.col
    (r.tok.toList ++ rec'.1, r.diag.toList ++ rec'.2)

/-- Contract of `Lexer.tokenize`: source text to token list plus the printed
lexical diagnostics, starting at line 1, column 1. -/
def tokenize (s : String) : List Token × List Diag :=
  lexLoop (s.toList.length + 1) s.toList 1 1

/-! ## Syntax tree (`syntaxtree.py`)

One constructor per `Node` subclass.  `BinaryOpNode` stores the whole
operator token (the analyzer reads its `type`, `line` and `column`);
`AssignmentNode` stores exactly a target name and a value, as in the source:
the class has no field recording whether `local` was present.  (The source
calls the name field `variable`; that word is reserved in Lean, so the
constructor argument is `target` here.) -/

/-- The closed AST node set of `syntaxtree.py`. -/
inductive Ast where
  | num (value : LitVal)
  | str (value : String)
  | var (name : String)
  | binop (left : Ast) (op : Token) (right : Ast)
  | assign (target : String) (value : Ast)
  | ifn (condition : Ast) (thenBranch : Ast) (elseBranch : Option Ast)
  | whl (condition : Ast) (body : Ast)
  | func (name : String) (params : List String) (body : Ast)
  | call (name : String) (args : List Ast)
  | ret (value : Option Ast)
  | block (stmts : List Ast)
deriving Repr

/-! ## Parser (`parser.py`, class `Parser`)

The Python parser keeps the token list and an index `current`.  Helper
methods are translated one-to-one; each parsing routine takes and returns the
state explicitly, and a fuel argument bounds the recursion depth (the fuel
`parseTokens` supplies is ample: every grammar rule consumes tokens). -/

/-- The `Token(TokenType.EOF)` built by `peek_next` past the end of the
stream: Python's constructor defaults give value `None`, line 0, column 0.
It also serves as the out-of-range default for list indexing, which the
source never hits on a lexer-produced (end-of-input-terminated) stream. -/
def eofTok : Token := { type := .EOF, value := none, line := 0, column := 0 }

/-- Parser state: the token list and the `current` index. -/
structure PState where
  tokens : List Token
  current : Nat
deriving DecidableEq, Repr

/-- `Parser.peek`. -/
def PState.peek (p : PState) : Token := p.tokens.getD p.current eofTok

/-- The `Parser.previous` lookup `self.tokens[self.current - 1]`: at index 0
Python's `tokens[-1]` yields the last element. -/
def PState.prev (p : PState) : Token :=
  if p.current = 0 then p.tokens.getLastD eofTok else p.tokens.getD (p.current - 1) eofTok

/-- `Parser.is_at_end`. -/
def PState.atEnd (p : PState) : Bool := p.peek.type = .EOF

/-- The index move of `Parser.advance` (no move at end of input). -/
def PState.bump (p : PState) : PState :=
  if p.atEnd then p else { p with current := p.current + 1 }

/-- `Parser.advance`: move when possible and return the token before the new
index. -/
def PState.advance (p : PState) : Token × PState :=
  let p' := p.bump
  (p'.prev, p')

/-- `Parser.check`. -/
def PState.check (p : PState) (t : TokenType) : Bool :=
  if p.atEnd then false else p.peek.type = t

/-- `Parser.match`: advance on the first matching kind. -/
def PState.mtch (p : PState) (ts : List TokenType) : Bool × PState :=
  if ts.any (fun t => p.check t) then (true, p.bump) else (false, p)

/-- `Parser.peek_next`. -/
def PState.peekNext (p : PState) : Token :=
  if p.tokens.length ≤ p.current + 1 then eofTok else p.tokens.getD (p.current + 1) eofTok

/-- `ParseError`: `consume` raises a message with the offending token's
position; `parse_primary` raises on an unexpected token.  `fuelExhausted` is
an artifact of the embedding's fuel and is unreachable for the fuel supplied
by `parseTokens` on the inputs considered. -/
inductive ParseErr where
  | expected (msg : String) (line : Nat) (column : Int)
  | unexpectedToken (t : Token)
  | fuelExhausted
deriving DecidableEq, Repr

/-- `Parser.consume`. -/
def PState.consume (p : PState) (t : TokenType) (msg : String) : Except ParseErr (Token × PState) :=
  if p.check t then .ok p.advance
  else .error (.expected msg p.peek.line p.peek.column)

/-- The string stored in a token's `value` slot, as the parser reads it for
identifier and string tokens (always a `str` there). -/
def tokText (t : Token) : String :=
  match t.value with
  | some (.str s) => s
  | _ => ""

mutual

/-- `Parser.parse_statement`: first-token dispatch. -/
def parseStatement : Nat → PState → Except ParseErr (Ast × PState)
  | 0, _ => .error .fuelExhausted
  | f + 1, p =>
    let r1 := p.mtch [.IF]
    if r1.1 then parseIfStatement f r1.2
    else
      let r2 := p.mtch [.WHILE]
      if r2.1 then parseWhileStatement f r2.2
      else
        let r3 := p.mtch [.FUNCTION]
        if r3.1 then parseFunctionDefinition f r3.2
        else
          let r4 := p.mtch [.RETURN]
          if r4.1 then parseReturnStatement f r4.2
          else
            let r5 := p.mtch [.LOCAL]
            if r5.1 then parseAssignment f r5.2
            else if p.check .IDENTIFIER && (p.peekNext.type == .ASSIGN) then
              parseAssignment f p
            else
              parseExpressionStatement f p
termination_by structural f _ => f

/-- `Parser.parse_expression_statement`. -/
def parseExpressionStatement : Nat → PState → Except ParseErr (Ast × PState)
  | 0, _ => .error .fuelExhausted
  | f + 1, p => do
    let (e, p1) ← parseExpression f p
    .ok (e, (p1.mtch [.SEMICOLON]).2)

/-- `Parser.parse_if_statement` (the `if` keyword is already consumed). -/
def parseIfStatement : Nat → PState → Except ParseErr (Ast × PState)
  | 0, _ => .error .fuelExhausted
  | f + 1, p => do
    let (cond, p1) ← parseExpression f p
    let (_, p2) ← p1.consume .THEN "Expected 'then' after if"
    let (thenStmts, p3) ← parseStatementList f [.ELSE, .END] [] p2
    let r := p3.mtch [.ELSE]
    if r.1 then do
      let (elseStmts, p4) ← parseStatementList f [.END] [] r.2
      let (_, p5) ← p4.consume .END "Expected 'end' after if/else block"
      .ok (.ifn cond (.block thenStmts) (some (.block elseStmts)), p5)
    else do
      let (_, p5) ← p3.consume .END "Expected 'end' after if/else block"
      .ok (.ifn cond (.block thenStmts) none, p5)
termination_by structural f _ => f

/-- `Parser.parse_while_statement`. -/
def parseWhileStatement : Nat → PState → Except ParseErr (Ast × PState)
  | 0, _ => .error .fuelExhausted
  | f + 1, p => do
    let (cond, p1) ← parseExpression f p
    let (_, p2) ← p1.consume .DO "Expected 'do' after while condition"
    let (body, p3) ← parseStatementList f [.END] [] p2
    let (_, p4) ← p3.consume .END "Expected 'end' after while body"
    .ok (.whl cond (.block body), p4)
termination_by structural f _ => f

/-- `Parser.parse_function_definition`. -/
def parseFunctionDefinition : Nat → PState → Except ParseErr (Ast × PState)
  | 0, _ => .error .fuelExhausted
  | f + 1, p => do
    let (nameTok, p1) ← p.consume .IDENTIFIER "Expected function name"
    let (_, p2) ← p1.consume .LPAREN "Expected '(' after function name"
    let (params, p3) ←
      if p2.check .RPAREN then (.ok ([], p2) : Except ParseErr _)
      else do
        let (t, q) ← p2.consume .IDENTIFIER "Expected parameter name"
        parseParamsLoop f [tokText t] q
    let (_, p4) ← p3.consume .RPAREN "Expected ')' after parameters"
    let (body, p5) ← parseStatementList f [.END] [] p4
    let (_, p6) ← p5.consume .END "Expected 'end' after function body"
    .ok (.func (tokText nameTok) params (.block body), p6)
termination_by structural f _ => f

/-- The `while self.match(COMMA)` parameter loop inside
`parse_function_definition`. -/
def parseParamsLoop : Nat → List String → PState → Except ParseErr (List String × PState)
  | 0, _, _ => .error .fuelExhausted
  | f + 1, acc, p =>
    let r := p.mtch [.COMMA]
    if r.1 then do
      let (t, q) ← r.2.consume .IDENTIFIER "Expected parameter name"
      parseParamsLoop f (acc ++ [tokText t]) q
    else .ok (acc, p)
termination_by structural f _ _ => f

/-- `Parser.parse_return_statement`: the value is parsed unless the NEXT
token is `end` or `else` (note: `check` is false at end of input, so a
`return` directly before end of input also takes the expression branch). -/
def parseReturnStatement : Nat → PState → Except ParseErr (Ast × PState)
  | 0, _ => .error .fuelExhausted
  | f + 1, p =>
    if !(p.check .END) && !(p.check .ELSE) then do
      let (v, p1) ← parseExpression f p
      .ok (.ret (some v), (p1.mtch [.SEMICOLON]).2)
    else
      .ok (.ret none, (p.mtch [.SEMICOLON]).2)

/-- `Parser.parse_assignment` (entered after `local` was matched, or with
`current` on an identifier followed by `=`). -/
def parseAssignment : Nat → PState → Except ParseErr (Ast × PState)
  | 0, _ => .error .fuelExhausted
  | f + 1, p => do
    let (name, p1) ←
      if p.prev.type = .LOCAL then do
        let (t, q) ← p.consume .IDENTIFIER "Expected variable name after 'local'"
        (.ok (tokText t, q) : Except ParseErr _)
      else
        let r := p.advance
        (.ok (tokText r.1, r.2) : Except ParseErr _)
    let (_, p2) ← p1.consume .ASSIGN "Expected '=' after variable name"
    let (v, p3) ← parseExpression f p2
    .ok (.assign name v, (p3.mtch [.SEMICOLON]).2)

/-- `Parser.parse_statement_list`. -/
def parseStatementList : Nat → List TokenType → List Ast → PState → Except ParseErr (List Ast × PState)
  | 0, _, _, _ => .error .fuelExhausted
  | f + 1, terms, acc, p =>
    if !p.atEnd && !(terms.any (fun t => p.check t)) then do
      let (s, p1) ← parseStatement f p
      parseStatementList f terms (acc ++ [s]) p1
    else .ok (acc, p)
termination_by structural f _ _ _ => f

/-- `Parser.parse_expression`. -/
def parseExpression : Nat → PState → Except ParseErr (Ast × PState)
  | 0, _ => .error .fuelExhausted
  | f + 1, p => parseConcat f p
termination_by structural f _ => f

/-- `Parser.parse_concat`. -/
def parseConcat : Nat → PState → Except ParseErr (Ast × PState)
  | 0, _ => .error .fuelExhausted
  | f + 1, p => do
    let (e, p1) ← parseComparison f p
    parseConcatLoop f e p1
termination_by structural f _ => f

/-- The `while self.match(DOTDOT)` fold of `parse_concat`. -/
def parseConcatLoop : Nat → Ast → PState → Except ParseErr (Ast × PState)
  | 0, _, _ => .error .fuelExhausted
  | f + 1, acc, p =>
    let r := p.mtch [.DOTDOT]
    if r.1 then do
      let op := r.2.prev
      let (rhs, p1) ← parseComparison f r.2
      parseConcatLoop f (.binop acc op rhs) p1
    else .ok (acc, p)
termination_by structural f _ _ => f

/-- `Parser.parse_comparison`. -/
def parseComparison : Nat → PState → Except ParseErr (Ast × PState)
  | 0, _ => .error .fuelExhausted
  | f + 1, p => do
    let (e, p1) ← parseAdditive f p
    parseComparisonLoop f e p1
termination_by structural f _ => f

/-- The comparison-operator fold of `parse_comparison`. -/
def parseComparisonLoop : Nat → Ast → PState → Except ParseErr (Ast × PState)
  | 0, _, _ => .error .fuelExhausted
  | f + 1, acc, p =>
    let r := p.mtch [.EQUAL_EQUAL, .GREATER, .GREATER_EQUAL, .LESS, .LESS_EQUAL]
    if r.1 then do
      let op := r.2.prev
      let (rhs, p1) ← parseAdditive f r.2
      parseComparisonLoop f (.binop acc op rhs) p1
    else .ok (acc, p)
termination_by structural f _ _ => f

/-- `Parser.parse_additive`. -/
def parseAdditive : Nat → PState → Except ParseErr (Ast × PState)
  | 0, _ => .error .fuelExhausted
  | f + 1, p => do
    let (e, p1) ← parseMultiplicative f p
    parseAdditiveLoop f e p1
termination_by structural f _ => f

/-- The `+`/`-` fold of `parse_additive`. -/
def parseAdditiveLoop : Nat → Ast → PState → Except ParseErr (Ast × PState)
  | 0, _, _ => .error .fuelExhausted
  | f + 1, acc, p =>
    let r := p.mtch [.PLUS, .MINUS]
    if r.1 then do
      let op := r.2.prev
      let (rhs, p1) ← parseMultiplicative f r.2
      parseAdditiveLoop f (.binop acc op rhs) p1
    else .ok (acc, p)
termination_by structural f _ _ => f

/-- `Parser.parse_multiplicative`. -/
def parseMultiplicative : Nat → PState → Except ParseErr (Ast × PState)
  | 0, _ => .error .fuelExhausted
  | f + 1, p => do
    let (e, p1) ← parsePrimary f p
    parseMultiplicativeLoop f e p1
termination_by structural f _ => f

/-- The `*`/`/` fold of `parse_multiplicative`. -/
def parseMultiplicativeLoop : Nat → Ast → PState → Except ParseErr (Ast × PState)
  | 0, _, _ => .error .fuelExhausted
  | f + 1, acc, p =>
    let r := p.mtch [.STAR, .SLASH]
    if r.1 then do
      let op := r.2.prev
      let (rhs, p1) ← parsePrimary f r.2
      parseMultiplicativeLoop f (.binop acc op rhs) p1
    else .ok (acc, p)
termination_by structural f _ _ => f

/-- `Parser.parse_primary`: literals, variables, calls, groupings. -/
def parsePrimary : Nat → PState → Except ParseErr (Ast × PState)
  | 0, _ => .error .fuelExhausted
  | f + 1, p =>
    let rNum := p.mtch [.NUMBER]
    if rNum.1 then .ok (.num (rNum.2.prev.value.getD (.str "")), rNum.2)
    else
      let rStr := p.mtch [.STRING]
      if rStr.1 then .ok (.str (tokText rStr.2.prev), rStr.2)
      else
        let rId := p.mtch [.IDENTIFIER]
        if rId.1 then
          let name := tokText rId.2.prev
          let rLp := rId.2.mtch [.LPAREN]
          if rLp.1 then do
            let (args, p1) ← parseArguments f rLp.2
            let (_, p2) ← p1.consume .RPAREN "Expected ')' after function arguments"
            .ok (.call name args, p2)
          else .ok (.var name, rId.2)
        else
          let rPar := p.mtch [.LPAREN]
          if rPar.1 then do
            let (e, p1) ← parseExpression f rPar.2
            let (_, p2) ← p1.consume .RPAREN "Expected ')' after expression"
            .ok (e, p2)
          else .error (.unexpectedToken p.peek)
termination_by structural f _ => f

/-- `Parser.parse_arguments`. -/
def parseArguments : Nat → PState → Except ParseErr (List Ast × PState)
  | 0, _ => .error .fuelExhausted
  | f + 1, p =>
    if p.check .RPAREN then .ok ([], p)
    else do
      let (e, p1) ← parseExpression f p
      parseArgsLoop f [e] p1
termination_by structural f _ => f

/-- The `while self.match(COMMA)` fold of `parse_arguments`. -/
def parseArgsLoop : Nat → List Ast → PState → Except ParseErr (List Ast × PState)
  | 0, _, _ => .error .fuelExhausted
  | f + 1, acc, p =>
    let r := p.mtch [.COMMA]
    if r.1 then do
      let (e, p1) ← parseExpression f r.2
      parseArgsLoop f (acc ++ [e]) p1
    else .ok (acc, p)
termination_by structural f _ _ => f

/-- `Parser.parse`: statements until end of input, wrapped in the program's
root block. -/
def parseTop : Nat → List Ast → PState → Except ParseErr (Ast × PState)
  | 0, _, _ => .error .fuelExhausted
  | f + 1, acc, p =>
    if p.atEnd then .ok (.block acc, p)
    else do
      let (s, p1) ← parseStatement f p
      parseTop f (acc ++ [s]) p1
termination_by structural f _ _ => f

end

/-- Fuel supplied by `parseTokens`: generous, since every cycle through the
mutually recursive routines consumes at least one token. -/
def parseFuel (ts : List Token) : Nat := 16 * ts.length + 16

/-- `Parser(tokens).parse()`. -/
def parseTokens (ts : List Token) : Except ParseErr Ast :=
  (parseTop (parseFuel ts) [] { tokens := ts, current := 0 }).map (fun r => r.1)

/-- The lexing-then-parsing composition run by `main.compile_code`. -/
def pipeline (source : String) : Except ParseErr Ast :=
  parseTokens (tokenize source).1

/-! ## Symbol table and semantic analyzer (`semantic.py`)

A `SymbolTable` is a variables map, a functions map and a parent reference;
since the analyzer only ever pushes a child of the current table and later
restores the saved parent, the chain is a stack, modelled as a list of
frames with the innermost scope first.  The variable map stores the analyzed
type of the defining expression; analysis results are `Option Ty` because
`analyze_node` returns `None` for pure-statement nodes. -/

/-- The type names the analyzer works with (`"number"`, `"string"`,
`"boolean"`, `"any"` in the source). -/
inductive Ty where
  | number
  | string
  | boolean
  | any
deriving DecidableEq, Repr

/-- Entry of the functions map: `(param_count, param_types, return_type)`. -/
abbrev FuncInfo := Nat × List Ty × Option Ty

/-- One `SymbolTable`'s own maps (Python dicts as association lists; every
insertion is guarded by a membership check, so keys are unique and lookup
order is immaterial). -/
structure Frame where
  vars : List (String × Option Ty)
  funcs : List (String × FuncInfo)
deriving DecidableEq, Repr

/-- Analyzer state: the scope chain (innermost frame first) and
`self.current_function`. -/
structure ASt where
  frames : List Frame
  currentFunction : Option String
deriving DecidableEq, Repr

/-- The `SemanticError` raised at each failure site of `semantic.py`,
with the data interpolated into the message.  (`fuelExhausted` is an
embedding artifact, unreachable for ample fuel.) -/
inductive SemErr where
  | duplicateVariable (name : String)
  | undefinedVariable (name : String)
  | duplicateFunction (name : String)
  | undefinedFunction (name : String)
  | arithTypeMismatch (leftTy rightTy : Option Ty) (line : Nat) (column : Int)
  | ifCondNotBool (got : Option Ty)
  | whileCondNotBool (got : Option Ty)
  | arityMismatch (name : String) (expected got : Nat)
  | returnOutsideFunction
  | fuelExhausted
deriving DecidableEq, Repr

/-- `SymbolTable.get_variable`: first frame that knows the name wins;
`none` when every level fails (the raising is done at the use site). -/
def lookupVar : List Frame → String → Option (Option Ty)
  | [], _ => none
  | fr :: rs, name =>
    match List.lookup name fr.vars with
    | some v => some v
    | none => lookupVar rs name

/-- `SymbolTable.get_function`, same shape as `lookupVar`. -/
def lookupFun : List Frame → String → Option FuncInfo
  | [], _ => none
  | fr :: rs, name =>
    match List.lookup name fr.funcs with
    | some v => some v
    | none => lookupFun rs name

/-- `SymbolTable.declare_variable` on one table. -/
def declareVarFrame (fr : Frame) (name : String) (ty : Option Ty) : Except SemErr Frame :=
  if (List.lookup name fr.vars).isSome then .error (.duplicateVariable name)
  else .ok { fr with vars := fr.vars ++ [(name, ty)] }

/-- `declare_variable` on the current (innermost) scope.  The empty-chain
case cannot arise in the source, where a current table always exists. -/
def declareVarHead : List Frame → String → Option Ty → Except SemErr (List Frame)
  | [], _, _ => .ok []
  | fr :: rs, name, ty => do
    let fr' ← declareVarFrame fr name ty
    .ok (fr' :: rs)

/-- The insertion `declareVarHead` performs when the duplicate check passes. -/
def insertVarHead : List Frame → String → Option Ty → List Frame
  | [], _, _ => []
  | fr :: rs, name, ty => { fr with vars := fr.vars ++ [(name, ty)] } :: rs

/-- `SymbolTable.declare_function` on the head of the given chain (the
analyzer calls it on `old_symbol_table`, the chain below the pushed function
scope).  The empty-chain case cannot arise in the source. -/
def declareFunHead : List Frame → String → FuncInfo → Except SemErr (List Frame)
  | [], _, _ => .ok []
  | fr :: rs, name, info =>
    if (List.lookup name fr.funcs).isSome then .error (.duplicateFunction name)
    else .ok ({ fr with funcs := fr.funcs ++ [(name, info)] } :: rs)

/-- The parameter loop of the `FunctionNode` branch: declare each parameter
with type `any` into the function's fresh table, failing on a duplicate. -/
def declareParams : List String → Frame → Except SemErr Frame
  | [], fr => .ok fr
  | pname :: ps, fr => do
    let fr' ← declareVarFrame fr pname (some .any)
    declareParams ps fr'

/-- A table with empty maps, as `SymbolTable(parent=...)` builds. -/
def emptyFrame : Frame := { vars := [], funcs := [] }

/-- `SemanticAnalyzer.__init__`: one global table holding the built-in
`print` (arity 1, parameter types `["any"]`, no return type), no current
function. -/
def initState : ASt :=
  { frames := [{ vars := [], funcs := [("print", (1, [Ty.any], none))] }],
    currentFunction := none }

/-- The membership test `node.op.type in [PLUS, MINUS, STAR, SLASH]`. -/
def isArithOp (t : TokenType) : Bool :=
  match t with
  | .PLUS | .MINUS | .STAR | .SLASH => true
  | _ => false

/-- The guard `isinstance(stmt, ReturnNode) and stmt.value` of the
return-type scan: the carried value, if the statement is a `Return` with
one. -/
def retValue : Ast → Option Ast
  | .ret (some v) => some v
  | _ => none

/-- The `node.body.statements` access of the `FunctionNode` branch; a
function body built by the parser is always a `Block`. -/
def bodyStmts : Ast → List Ast
  | .block stmts => stmts
  | _ => []

mutual

/-- `SemanticAnalyzer.analyze_node`: compute the node's type (or `none` for
statements) and the updated scope-chain state, or fail with the first
`SemanticError`.  All eleven node classes of `syntaxtree.py` are covered, so
the defensive unknown-node branch of the source has no counterpart. -/
def analyzeNode : Nat → Ast → ASt → Except SemErr (Option Ty × ASt)
  | 0, _, _ => .error .fuelExhausted
  | f + 1, node, st =>
    match node with
    | .num _ => .ok (some .number, st)
    | .str _ => .ok (some .string, st)
    | .var name =>
      match lookupVar st.frames name with
      | some v => .ok (v, st)
      | none => .error (.undefinedVariable name)
    | .binop l op r => do
      let (leftTy, st1) ← analyzeNode f l st
      let (rightTy, st2) ← analyzeNode f r st1
      if op.type = .DOTDOT then .ok (some .string, st2)
      else if isArithOp op.type then
        if leftTy ≠ some .number ∨ rightTy ≠ some .number then
          .error (.arithTypeMismatch leftTy rightTy op.line op.column)
        else .ok (some .number, st2)
      else .ok (some .boolean, st2)
    | .assign name v => do
      let (exprTy, st1) ← analyzeNode f v st
      match lookupVar st1.frames name with
      | some _ => .ok (exprTy, st1)
      | none => do
        let fs ← declareVarHead st1.frames name exprTy
        .ok (exprTy, { st1 with frames := fs })
    | .ifn cond thenB elseB => do
      let (condTy, st1) ← analyzeNode f cond st
      if condTy ≠ some .boolean then .error (.ifCondNotBool condTy)
      else do
        let (_, st2) ← analyzeNode f thenB st1
        match elseB with
        | some eb => do
          let (_, st3) ← analyzeNode f eb st2
          .ok (none, st3)
        | none => .ok (none, st2)
    | .whl cond body => do
      let (condTy, st1) ← analyzeNode f cond st
      if condTy ≠ some .boolean then .error (.whileCondNotBool condTy)
      else do
        let (_, st2) ← analyzeNode f body st1
        .ok (none, st2)
    | .func name params body => do
      let pframe ← declareParams params emptyFrame
      let (retTy, st2) ←
        scanReturns f (bodyStmts body) none
          { frames := pframe :: st.frames, currentFunction := some name }
      match st2.frames with
      | inner :: outer => do
        let outer' ← declareFunHead outer name
          (params.length, params.map (fun _ => Ty.any), retTy)
        let (_, st3) ← analyzeNode f body { frames := inner :: outer', currentFunction := some name }
        .ok (none, { frames := st3.frames.tail, currentFunction := st.currentFunction })
      | [] => .ok (none, st)
    | .call name args =>
      match lookupFun st.frames name with
      | none => .error (.undefinedFunction name)
      | some (paramCount, _, retTy) =>
        if args.length ≠ paramCount then
          .error (.arityMismatch name paramCount args.length)
        else do
          let st' ← analyzeSeq f args st
          .ok (some (retTy.getD .any), st')
    | .ret v =>
      if st.currentFunction.isNone then .error .returnOutsideFunction
      else
        match v with
        | some e => analyzeNode f e st
        | none => .ok (none, st)
    | .block stmts => do
      let st1 ← analyzeSeq f stmts
        { frames := emptyFrame :: st.frames, currentFunction := st.currentFunction }
      .ok (none, { frames := st1.frames.tail, currentFunction := st1.currentFunction })
termination_by structural f _ _ => f

/-- The statement/argument loops (`for stmt in node.statements: ...` and
`for arg in node.arguments: ...`): analyze in order, discarding types. -/
def analyzeSeq : Nat → List Ast → ASt → Except SemErr ASt
  | 0, _, _ => .error .fuelExhausted
  | _ + 1, [], st => .ok st
  | f + 1, x :: xs, st => do
    let (_, st') ← analyzeNode f x st
    analyzeSeq f xs st'
termination_by structural f _ _ => f

/-- The return-type scan of the `FunctionNode` branch: walk the body's
direct statement list, analyzing the value of every `Return` that carries
one; each hit overwrites the accumulator, and other statements (including
nested blocks) are skipped without descending. -/
def scanReturns : Nat → List Ast → Option Ty → ASt → Except SemErr (Option Ty × ASt)
  | 0, _, _, _ => .error .fuelExhausted
  | _ + 1, [], acc, st => .ok (acc, st)
  | f + 1, stmt :: rest, acc, st =>
    match retValue stmt with
    | some v => do
      let (ty, st') ← analyzeNode f v st
      scanReturns f rest ty st'
    | none => scanReturns f rest acc st
termination_by structural f _ _ _ => f

end

/-- Fuel for whole-program analysis; ample for the concrete programs
considered (any shortfall would surface as a `fuelExhausted` error and make
the concrete equations below unprovable, never wrong). -/
def analyzeAst (a : Ast) : Except SemErr (Option Ty × ASt) :=
  analyzeNode 1000 a initState

/-- The full `compile_code` pipeline of `main.py`: tokenize, parse, then
analyze with a fresh `SemanticAnalyzer`; `none` when parsing already
failed. -/
def analyzeSource (source : String) : Option (Except SemErr (Option Ty × ASt)) :=
  match pipeline source with
  | .error _ => none
  | .ok ast => some (analyzeAst ast)

/-! ## Predicates and helper definitions used by the claim statements -/

/-- A token list that ends with exactly one end-of-input token: the last
token is `EOF` and no earlier one is. -/
def endsWithOneEof (ts : List Token) : Prop :=
  ∃ pre lastTok, ts = pre ++ [lastTok] ∧ lastTok.type = .EOF ∧ ∀ t ∈ pre, t.type ≠ .EOF

/-- A character that no `scan_token` branch accepts: not whitespace, not an
identifier or number start, not a quote, and not one of the operator
characters (`.` is excluded here because a lone `.` faults only when not
followed by a second `.`; the characters listed cover every remaining
branch). -/
def isFaultChar (c : Char) : Bool :=
  !isSpaceCh c && !(c.isAlpha || c == '_') && !c.isDigit && !(c == '"' || c == '\'') &&
    !(c == '=' || c == '>' || c == '<' || c == '+' || c == '-' || c == '*' || c == '/' ||
      c == '(' || c == ')' || c == ',' || c == ';' || c == '.')

/-- The first name of the list already seen when the names are declared one
by one (into a scope whose known names are `seen`): the name the duplicate
check of `declare_variable` trips over. -/
def firstDupFrom : List String → List String → Option String
  | _, [] => none
  | seen, p :: ps => if p ∈ seen then some p else firstDupFrom (p :: seen) ps

/-- The first parameter name that repeats an earlier one. -/
def firstDup (ps : List String) : Option String := firstDupFrom [] ps

/-- The values carried by the `Return` nodes in a DIRECT statement list
(nested blocks contribute nothing), in order. -/
def directValuedReturns (stmts : List Ast) : List Ast := stmts.filterMap retValue

/-- Concrete type assignment for the witness below. -/
def c1TyOf : Ast → Option Ty
  | .num _ => some .number
  | .str _ => some .string
  | _ => none

/-! ## Lexer lemmas -/

theorem spanP_snd_length_le (p : Char → Bool) (l : List Char) :
    (spanP p l).2.length ≤ l.length := by
  induction l with
  | nil => simp [spanP]
  | cons c cs ih =>
    simp only [spanP]
    split
    · simpa using Nat.le_succ_of_le ih
    · simp

theorem lexStr_rest_length_le (q : Char) (l : List Char) (line col : Nat) :
    (lexStr q l line col).2.1.length ≤ l.length := by
  induction l generalizing line col with
  | nil => simp [lexStr]
  | cons c cs ih =>
    simp only [lexStr]
    split
    · simp
    · simpa using Nat.le_succ_of_le (ih _ _)

/-- When `Lexer.string` hits end of input while looking for the closing
quote, it has consumed the entire remaining source. -/
theorem lexStr_unterminated_rest (q : Char) (l : List Char) (line col : Nat)
    (h : (lexStr q l line col).1 = none) : (lexStr q l line col).2.1 = [] := by
  induction l generalizing line col with
  | nil => simp [lexStr]
  | cons c cs ih =>
    by_cases hc : c = q
    · simp [lexStr, hc] at h
    · simp only [lexStr, if_neg hc] at h ⊢
      exact ih _ _ (by simpa using h)

theorem tailCh_length_le (l : List Char) : (tailCh l).length ≤ l.length := by
  cases l <;> simp [tailCh]

theorem identifierTok_rest_length_le (c : Char) (cs : List Char) (line col : Nat) :
    (identifierTok c cs line col).rest.length ≤ cs.length := by
  simpa [identifierTok] using spanP_snd_length_le (fun ch => ch.isAlphanum || ch == '_') cs

theorem numberTok_rest_length_le (c : Char) (cs : List Char) (line col : Nat) :
    (numberTok c cs line col).rest.length ≤ cs.length := by
  unfold numberTok
  dsimp only
  split
  · refine le_trans (spanP_snd_length_le _ _) (le_trans (tailCh_length_le _) ?_)
    exact spanP_snd_length_le _ _
  · exact spanP_snd_length_le _ _

theorem stringTok_rest_length_le (q : Char) (cs : List Char) (line col : Nat) :
    (stringTok q cs line col).rest.length ≤ cs.length := by
  unfold stringTok
  split
  next rest line2 col2 heq =>
    have h := lexStr_rest_length_le q cs line col
    rw [heq] at h
    simpa using h
  next content rest line2 col2 heq =>
    have h := lexStr_rest_length_le q cs line col
    rw [heq] at h
    simpa using h

theorem minusTok_rest_length_le (cs : List Char) (line col : Nat) :
    (minusTok cs line col).rest.length ≤ cs.length := by
  unfold minusTok
  split
  · exact spanP_snd_length_le _ _
  · exact Nat.le_refl _

/-- Case principle for one `scan_token` step, used to reason about all its
outcomes without re-splitting the character dispatch in every proof. -/
theorem step_elim (c : Char) (cs : List Char) (line col : Nat)
    (motive : StepOut → Prop)
    (hws : ∀ l k, motive ⟨none, none, cs, l, k⟩)
    (hid : motive (identifierTok c cs line col))
    (hnum : motive (numberTok c cs line col))
    (hstr : motive (stringTok c cs line col))
    (hminus : motive (minusTok cs line col))
    (h2op : ∀ ty v, ty ≠ .EOF →
      motive ⟨some (mkTok ty v line (col + 1) 2), none, tailCh cs, line, col + 1⟩)
    (h1op : ∀ ty v, ty ≠ .EOF → motive ⟨some (mkTok ty v line col 1), none, cs, line, col⟩)
    (hdiag : motive ⟨none, some (.unexpectedChar c line col), cs, line, col⟩) :
    motive (step c cs line col) := by
  delta step
  by_cases h1 : isSpaceCh c = true
  · rw [if_pos h1]
    by_cases h1b : c = '\n'
    · rw [if_pos h1b]; exact hws _ _
    · rw [if_neg h1b]; exact hws _ _
  all_goals rw [if_neg h1]
  by_cases h2 : (c.isAlpha || c == '_') = true
  · rw [if_pos h2]; exact hid
  all_goals rw [if_neg h2]
  by_cases h3 : c.isDigit = true
  · rw [if_pos h3]; exact hnum
  all_goals rw [if_neg h3]
  by_cases h4 : (c == '"' || c == '\'') = true
  · rw [if_pos h4]; exact hstr
  all_goals rw [if_neg h4]
  by_cases h5 : c = '='
  · rw [if_pos h5]
    by_cases hp : peekCh cs = '='
    · rw [if_pos hp]; exact h2op _ _ (by decide)
    · rw [if_neg hp]; exact h1op _ _ (by decide)
  all_goals rw [if_neg h5]
  by_cases h6 : c = '>'
  · rw [if_pos h6]
    by_cases hp : peekCh cs = '='
    · rw [if_pos hp]; exact h2op _ _ (by decide)
    · rw [if_neg hp]; exact h1op _ _ (by decide)
  all_goals rw [if_neg h6]
  by_cases h7 : c = '<'
  · rw [if_pos h7]
    by_cases hp : peekCh cs = '='
    · rw [if_pos hp]; exact h2op _ _ (by decide)
    · rw [if_neg hp]; exact h1op _ _ (by decide)
  all_goals rw [if_neg h7]
  by_cases h8 : c = '+'
  · rw [if_pos h8]; exact h1op _ _ (by decide)
  all_goals rw [if_neg h8]
  by_cases h9 : c = '-'
  · rw [if_pos h9]; exact hminus
  all_goals rw [if_neg h9]
  by_cases h10 : c = '*'
  · rw [if_pos h10]; exact h1op _ _ (by decide)
  all_goals rw [if_neg h10]
  by_cases h11 : c = '/'
  · rw [if_pos h11]; exact h1op _ _ (by decide)
  all_goals rw [if_neg h11]
  by_cases h12 : c = '('
  · rw [if_pos h12]; exact h1op _ _ (by decide)
  all_goals rw [if_neg h12]
  by_cases h13 : c = ')'
  · rw [if_pos h13]; exact h1op _ _ (by decide)
  all_goals rw [if_neg h13]
  by_cases h14 : c = ','
  · rw [if_pos h14]; exact h1op _ _ (by decide)
  all_goals rw [if_neg h14]
  by_cases h15 : c = ';'
  · rw [if_pos h15]; exact h1op _ _ (by decide)
  all_goals rw [if_neg h15]
  by_cases h16 : c = '.'
  · rw [if_pos h16]
    by_cases hp : peekCh cs = '.'
    · rw [if_pos hp]; exact h2op _ _ (by decide)
    · rw [if_neg hp]; exact hdiag
  all_goals rw [if_neg h16]
  exact hdiag

/-- Every `scan_token` step consumes at least the character handed to it:
the returned suffix never grows. -/
theorem step_rest_length_le (c : Char) (cs : List Char) (line col : Nat) :
    (step c cs line col).rest.length ≤ cs.length := by
  refine step_elim c cs line col (fun r => r.rest.length ≤ cs.length) ?_ ?_ ?_ ?_ ?_ ?_ ?_ ?_
  · intro l k; exact Nat.le_refl _
  · exact identifierTok_rest_length_le _ _ _ _
  · exact numberTok_rest_length_le _ _ _ _
  · exact stringTok_rest_length_le _ _ _ _
  · exact minusTok_rest_length_le _ _ _
  · intro ty v _; exact tailCh_length_le _
  · intro ty v _; exact Nat.le_refl _
  · exact Nat.le_refl _

theorem keywordType_ne_eof (s : String) : keywordType s ≠ .EOF := by
  unfold keywordType
  repeat' split
  all_goals decide

theorem identifierTok_tok_ne_eof (c : Char) (cs : List Char) (line col : Nat) (t : Token)
    (h : (identifierTok c cs line col).tok = some t) : t.type ≠ .EOF := by
  unfold identifierTok at h
  dsimp only at h
  simp only [Option.some.injEq] at h
  subst h
  simpa [mkTok] using keywordType_ne_eof (String.mk (c :: (spanP (fun ch => ch.isAlphanum || ch == '_') cs).1))

theorem numberTok_tok_ne_eof (c : Char) (cs : List Char) (line col : Nat) (t : Token)
    (h : (numberTok c cs line col).tok = some t) : t.type ≠ .EOF := by
  unfold numberTok at h
  dsimp only at h
  split at h
  all_goals
    simp only [Option.some.injEq] at h
    subst h
    simp [mkTok]

theorem stringTok_tok_ne_eof (q : Char) (cs : List Char) (line col : Nat) (t : Token)
    (h : (stringTok q cs line col).tok = some t) : t.type ≠ .EOF := by
  unfold stringTok at h
  split at h
  · simp at h
  · dsimp only at h
    simp only [Option.some.injEq] at h
    subst h
    simp [mkTok]

theorem minusTok_tok_ne_eof (cs : List Char) (line col : Nat) (t : Token)
    (h : (minusTok cs line col).tok = some t) : t.type ≠ .EOF := by
  unfold minusTok at h
  split at h
  · simp at h
  · dsimp only at h
    simp only [Option.some.injEq] at h
    subst h
    simp [mkTok]

/-- No `scan_token` step ever emits an end-of-input token: the only one in a
token list is the one `tokenize` appends after the loop. -/
theorem step_tok_ne_eof (c : Char) (cs : List Char) (line col : Nat) (t : Token)
    (h : (step c cs line col).tok = some t) : t.type ≠ .EOF := by
  revert h
  refine step_elim c cs line col (fun r => r.tok = some t → t.type ≠ .EOF) ?_ ?_ ?_ ?_ ?_ ?_ ?_ ?_
  · intro l k h; simp at h
  · exact identifierTok_tok_ne_eof _ _ _ _ t
  · exact numberTok_tok_ne_eof _ _ _ _ t
  · exact stringTok_tok_ne_eof _ _ _ _ t
  · exact minusTok_tok_ne_eof _ _ _ t
  · intro ty v hty h
    simp only [Option.some.injEq] at h
    subst h
    simpa [mkTok] using hty
  · intro ty v hty h
    simp only [Option.some.injEq] at h
    subst h
    simpa [mkTok] using hty
  · intro h; simp at h


theorem lexLoop_endsWithOneEof (fuel : Nat) (l : List Char) (line col : Nat) :
    endsWithOneEof (lexLoop fuel l line col).1 := by
  induction fuel generalizing l line col with
  | zero =>
    exact ⟨[], { type := .EOF, value := none, line := line, column := (col : Int) },
      by simp [lexLoop], rfl, by simp⟩
  | succ f ih =>
    cases l with
    | nil =>
      exact ⟨[], { type := .EOF, value := none, line := line, column := (col : Int) },
        by simp [lexLoop], rfl, by simp⟩
    | cons c cs =>
      obtain ⟨pre, lastTok, hpre, hlast, hne⟩ := ih (step c cs line (col + 1)).rest
        (step c cs line (col + 1)).line (step c cs line (col + 1)).col
      refine ⟨(step c cs line (col + 1)).tok.toList ++ pre, lastTok, ?_, hlast, ?_⟩
      · simp only [lexLoop]
        rw [hpre]
        simp
      · intro t ht
        rcases List.mem_append.1 ht with h1 | h2
        · refine step_tok_ne_eof c cs line (col + 1) t ?_
          cases hs : (step c cs line (col + 1)).tok with
          | none => simp [hs] at h1
          | some u => simp [hs] at h1; simp [h1, hs]
        · exact hne t h2

/-- The scan loop's value does not depend on the fuel once the fuel exceeds
the input length, so the amount supplied by `tokenize` is canonical. -/
theorem lexLoop_fuel_irrelevant (f g : Nat) (l : List Char) (line col : Nat)
    (hf : l.length < f) (hg : l.length < g) :
    lexLoop f l line col = lexLoop g l line col := by
  induction f generalizing g l line col with
  | zero => omega
  | succ f ih =>
    cases g with
    | zero => omega
    | succ g =>
      cases l with
      | nil => rfl
      | cons c cs =>
        simp only [lexLoop]
        rw [ih g (step c cs line (col + 1)).rest (step c cs line (col + 1)).line
          (step c cs line (col + 1)).col
          (lt_of_le_of_lt (step_rest_length_le c cs line (col + 1)) (by simpa using hf))
          (lt_of_le_of_lt (step_rest_length_le c cs line (col + 1)) (by simpa using hg))]


/-- On a fault character, `scan_token` only prints the unexpected-character
diagnostic: no token, and the rest of the input is left for the loop. -/
theorem step_fault_char (c : Char) (cs : List Char) (line col : Nat)
    (h : isFaultChar c = true) :
    step c cs line col = ⟨none, some (.unexpectedChar c line col), cs, line, col⟩ := by
  simp only [isFaultChar, Bool.and_eq_true, Bool.not_eq_true'] at h
  obtain ⟨⟨⟨⟨h1, h2⟩, h3⟩, h4⟩, h5⟩ := h
  simp only [Bool.or_eq_false_iff, beq_eq_false_iff_ne] at h5
  obtain ⟨⟨⟨⟨⟨⟨⟨⟨⟨⟨⟨e1, e2⟩, e3⟩, e4⟩, e5⟩, e6⟩, e7⟩, e8⟩, e9⟩, e10⟩, e11⟩, e12⟩ := h5
  delta step
  rw [if_neg (by simp [h1]), if_neg (by simp [h2]), if_neg (by simp [h3]),
    if_neg (by simp [h4]), if_neg e1, if_neg e2, if_neg e3, if_neg e4, if_neg e5,
    if_neg e6, if_neg e7, if_neg e8, if_neg e9, if_neg e10, if_neg e11, if_neg e12]

/-- When the closing quote is missing, `Lexer.string` prints the
unterminated-string diagnostic, adds no token, and leaves the scan position
at end of input. -/
theorem stringTok_unterminated (q : Char) (cs : List Char) (line col : Nat)
    (h : (lexStr q cs line col).1 = none) :
    stringTok q cs line col =
      ⟨none, some (.unterminatedString (lexStr q cs line col).2.2.1), [],
        (lexStr q cs line col).2.2.1, (lexStr q cs line col).2.2.2⟩ := by
  have hrest := lexStr_unterminated_rest q cs line col h
  unfold stringTok
  split
  next rest l2 c2 heq =>
    rw [heq] at hrest ⊢
    simp only at hrest
    subst hrest
    rfl
  next content rest l2 c2 heq =>
    rw [heq] at h
    simp at h

theorem step_unterminated (q : Char) (cs : List Char) (line col : Nat)
    (hq : q = '"' ∨ q = '\'') (h : (lexStr q cs line col).1 = none) :
    step q cs line col =
      ⟨none, some (.unterminatedString (lexStr q cs line col).2.2.1), [],
        (lexStr q cs line col).2.2.1, (lexStr q cs line col).2.2.2⟩ := by
  have hs : isSpaceCh q = false := by rcases hq with h' | h' <;> subst h' <;> decide
  have ha : (q.isAlpha || q == '_') = false := by rcases hq with h' | h' <;> subst h' <;> decide
  have hd : q.isDigit = false := by rcases hq with h' | h' <;> subst h' <;> decide
  have hqq : (q == '"' || q == '\'') = true := by rcases hq with h' | h' <;> subst h' <;> decide
  delta step
  rw [if_neg (by simp [hs]), if_neg (by simp [ha]), if_neg (by simp [hd]), if_pos hqq]
  exact stringTok_unterminated q cs line col h

/-- On a fault character the loop records one diagnostic and scans on from
the next character; the token stream is exactly that of the remaining
input. -/
theorem lexLoop_skips_fault (c : Char) (h : isFaultChar c = true)
    (fuel : Nat) (cs : List Char) (line col : Nat) :
    lexLoop (fuel + 1) (c :: cs) line col =
      ((lexLoop fuel cs line (col + 1)).1,
        .unexpectedChar c line (col + 1) :: (lexLoop fuel cs line (col + 1)).2) := by
  simp [lexLoop, step_fault_char c cs line (col + 1) h]

/-- On an unterminated string the loop records the diagnostic, emits no
token for the string, and (being at end of input) closes the stream with the
end-of-input token. -/
theorem lexLoop_skips_unterminated (q : Char) (cs : List Char) (line col fuel : Nat)
    (hq : q = '"' ∨ q = '\'') (h : (lexStr q cs line (col + 1)).1 = none) :
    lexLoop (fuel + 1) (q :: cs) line col =
      ([{ type := .EOF, value := none, line := (lexStr q cs line (col + 1)).2.2.1,
          column := ((lexStr q cs line (col + 1)).2.2.2 : Int) }],
        [.unterminatedString (lexStr q cs line (col + 1)).2.2.1]) := by
  simp only [lexLoop, step_unterminated q cs line (col + 1) hq h]
  cases fuel <;> simp [lexLoop]

/-- When `Lexer.string` finds the closing quote without crossing a newline,
the line counter is unchanged and the column counter has advanced by one per
content character plus one for the closing quote. -/
theorem lexStr_terminated_pos (q : Char) (l : List Char) (line col : Nat) (content : List Char)
    (hnl : '\n' ∉ l) (h : (lexStr q l line col).1 = some content) :
    (lexStr q l line col).2.2.1 = line ∧
    (lexStr q l line col).2.2.2 = col + content.length + 1 := by
  induction l generalizing col content with
  | nil => simp [lexStr] at h
  | cons c cs ih =>
    rw [List.mem_cons, not_or] at hnl
    by_cases hc : c = q
    · simp only [lexStr, if_pos hc, Option.some.injEq] at h ⊢
      subst h
      simp
    · have hcn : ¬(c = '\n') := fun e => hnl.1 (by rw [e])
      simp only [lexStr, if_neg hc, if_neg hcn] at h ⊢
      obtain ⟨content2, h1, rfl⟩ := Option.map_eq_some'.1 h
      obtain ⟨hline, hcol⟩ := ih (col + 1) content2 hnl.2 h1
      refine ⟨hline, ?_⟩
      rw [hcol]
      simp only [List.length_cons]
      omega

theorem identifierTok_pos (c : Char) (cs : List Char) (line col : Nat) (t : Token)
    (h : (identifierTok c cs line col).tok = some t) :
    t.line = line ∧ t.column = (col : Int) - 1 := by
  unfold identifierTok at h
  dsimp only at h
  simp only [Option.some.injEq] at h
  subst h
  refine ⟨rfl, ?_⟩
  simp only [mkTok, List.length_cons]
  push_cast
  ring

theorem numberTok_pos (c : Char) (cs : List Char) (line col : Nat) (t : Token)
    (h : (numberTok c cs line col).tok = some t) :
    t.line = line ∧ t.column = (col : Int) - 1 := by
  unfold numberTok at h
  dsimp only at h
  split at h
  all_goals
    simp only [Option.some.injEq] at h
    subst h
    refine ⟨rfl, ?_⟩
    simp only [mkTok, List.length_append, List.length_cons]
    push_cast
    ring

theorem minusTok_pos (cs : List Char) (line col : Nat) (t : Token)
    (h : (minusTok cs line col).tok = some t) :
    t.line = line ∧ t.column = (col : Int) - 1 := by
  unfold minusTok at h
  split at h
  · simp at h
  · dsimp only at h
    simp only [Option.some.injEq] at h
    subst h
    refine ⟨rfl, ?_⟩
    simp [mkTok]

theorem stringTok_pos (q : Char) (cs : List Char) (line col : Nat) (t : Token)
    (hnl : '\n' ∉ cs) (h : (stringTok q cs line col).tok = some t) :
    t.line = line ∧ t.column = (col : Int) - 1 := by
  unfold stringTok at h
  split at h
  · simp at h
  next content rest l2 c2 heq =>
    dsimp only at h
    simp only [Option.some.injEq] at h
    subst h
    have h1 : (lexStr q cs line col).1 = some content := by rw [heq]
    obtain ⟨hl, hc⟩ := lexStr_terminated_pos q cs line col content hnl h1
    rw [heq] at hl hc
    dsimp only at hl hc
    subst hl
    subst hc
    refine ⟨rfl, ?_⟩
    simp only [mkTok]
    push_cast
    ring

/-- Positional exactness of one scan step on newline-free input: the emitted
token is recorded at the step's line, and at column `col - 1` — exactly the
column at which the token's first character was consumed (the loop hands the
step `col + 1` after consuming the first character at column `col`).  With a
newline inside a string literal this breaks (see the C2 counterexample). -/
theorem step_tok_position (c : Char) (cs : List Char) (line col : Nat) (t : Token)
    (hnl : '\n' ∉ cs) (h : (step c cs line col).tok = some t) :
    t.line = line ∧ t.column = (col : Int) - 1 := by
  revert h
  refine step_elim c cs line col
    (fun r => r.tok = some t → t.line = line ∧ t.column = (col : Int) - 1)
    ?_ ?_ ?_ ?_ ?_ ?_ ?_ ?_
  · intro l k h; simp at h
  · exact identifierTok_pos c cs line col t
  · exact numberTok_pos c cs line col t
  · exact stringTok_pos c cs line col t hnl
  · exact minusTok_pos cs line col t
  · intro ty v _ h
    simp only [Option.some.injEq] at h
    subst h
    refine ⟨rfl, ?_⟩
    simp [mkTok]
    ring
  · intro ty v _ h
    simp only [Option.some.injEq] at h
    subst h
    exact ⟨rfl, by simp [mkTok]⟩
  · intro h; simp at h

/-! ## Claim C2 -/

/-- C2, counterexample.  Tokenizing `'\n'x` (a string literal containing a
newline, followed by `x`) yields a string token recorded at line 2, column 0
and an identifier token recorded at column 3, although the string literal's
first character sits at line 1, column 1 and `x` at line 2, column 2; a
recorded column below 1 cannot be the exact column of any character.  The
culprit is `Lexer.string`, which resets `column` before (not after) the
newline is consumed, and `add_token`, which uses the line of the token's
last character. -/
theorem c2_position_counterexample :
    (tokenize "'\n'x").1 =
      [{ type := .STRING, value := some (.str "\n"), line := 2, column := 0 },
       { type := .IDENTIFIER, value := some (.str "x"), line := 2, column := 3 },
       { type := .EOF, value := none, line := 2, column := 4 }] ∧
    ∃ t ∈ (tokenize "'\n'x").1, t.column < 1 := by
  refine ⟨rfl, { type := .STRING, value := some (.str "\n"), line := 2, column := 0 }, ?_, ?_⟩
  · rw [show (tokenize "'\n'x").1 = _ from rfl]
    exact List.mem_cons_self _ _
  · decide

/-- C2 (amended): for every input string the token sequence returned by the
lexer ends with exactly one end-of-input token.  A token produced by a scan
step over a newline-free remainder of the input is recorded at the step's
line and at the column of its first character (the scan loop consumed that
character at column `col - 1`); so positions are exact as long as no string
literal carries an embedded newline — the `local x = 10` stream illustrates
it — while a string literal with embedded newlines breaks exactness for
itself and the tokens after it (see `c2_position_counterexample`). -/
theorem c2_token_stream_shape :
    (∀ s : String, endsWithOneEof (tokenize s).1) ∧
    (∀ c cs line col t, '\n' ∉ cs → (step c cs line col).tok = some t →
      t.line = line ∧ t.column = (col : Int) - 1) ∧
    (tokenize "local x = 10").1 =
      [{ type := .LOCAL, value := some (.str "local"), line := 1, column := 1 },
       { type := .IDENTIFIER, value := some (.str "x"), line := 1, column := 7 },
       { type := .ASSIGN, value := some (.str "="), line := 1, column := 9 },
       { type := .NUMBER, value := some (.intVal 10), line := 1, column := 11 },
       { type := .EOF, value := none, line := 1, column := 13 }] :=
  ⟨fun _ => lexLoop_endsWithOneEof _ _ 1 1,
   fun c cs line col t hnl h => step_tok_position c cs line col t hnl h,
   rfl⟩

/-- C2 (amended), witness: the scan step on `a` followed by `x1` (consumed
at column 1, so the step receives column 2) emits the identifier token
`ax1` recorded at line 1, column 1. -/
theorem c2_token_stream_shape_witness :
    ('\n' ∉ (['x', '1'] : List Char) ∧
      (step 'a' ['x', '1'] 1 2).tok =
        some { type := .IDENTIFIER, value := some (.str "ax1"), line := 1, column := 1 }) ∧
    ({ type := .IDENTIFIER, value := some (.str "ax1"), line := 1, column := 1 } : Token).line = 1 ∧
    ({ type := .IDENTIFIER, value := some (.str "ax1"), line := 1, column := 1 } : Token).column =
      (2 : Int) - 1 :=
  ⟨⟨by decide, rfl⟩,
   c2_token_stream_shape.2.1 'a' ['x', '1'] 1 2
     { type := .IDENTIFIER, value := some (.str "ax1"), line := 1, column := 1 }
     (by decide) rfl⟩

/-- A lone `.` (not followed by a second `.`) is the one conditional fault:
`scan_token` prints the unexpected-character diagnostic and moves on. -/
theorem step_lone_dot (cs : List Char) (line col : Nat) (hp : peekCh cs ≠ '.') :
    step '.' cs line col = ⟨none, some (.unexpectedChar '.' line col), cs, line, col⟩ := by
  delta step
  rw [if_neg (by decide), if_neg (by decide), if_neg (by decide), if_neg (by decide),
    if_neg (by decide), if_neg (by decide), if_neg (by decide), if_neg (by decide),
    if_neg (by decide), if_neg (by decide), if_neg (by decide), if_neg (by decide),
    if_neg (by decide), if_neg (by decide), if_neg (by decide), if_pos rfl, if_neg hp]

theorem lexLoop_skips_lone_dot (cs : List Char) (line col fuel : Nat) (hp : peekCh cs ≠ '.') :
    lexLoop (fuel + 1) ('.' :: cs) line col =
      ((lexLoop fuel cs line (col + 1)).1,
        .unexpectedChar '.' line (col + 1) :: (lexLoop fuel cs line (col + 1)).2) := by
  simp [lexLoop, step_lone_dot cs line (col + 1) hp]

/-! ## Claim C8 -/

/-- C8: lexical faults never abort tokenization.  On a character no branch
accepts (including a lone `.` not followed by a second one), the lexer
emits one diagnostic, emits no token, and scans the rest of the input as if
the character were absent; on an unterminated string it emits one
diagnostic, no token, and still closes the (complete) token list
with the end-of-input token.  The two concrete runs show several
diagnostics accumulating in one run while the token list is still produced:
`"@ $ 'abc"` yields three diagnostics, and `"x @ y"` tokenizes both
identifiers around the fault. -/
theorem c8_faults_are_skipped :
    (∀ c, isFaultChar c = true → ∀ fuel cs line col,
      lexLoop (fuel + 1) (c :: cs) line col =
        ((lexLoop fuel cs line (col + 1)).1,
          .unexpectedChar c line (col + 1) :: (lexLoop fuel cs line (col + 1)).2)) ∧
    (∀ q cs line col fuel, q = '"' ∨ q = '\'' → (lexStr q cs line (col + 1)).1 = none →
      lexLoop (fuel + 1) (q :: cs) line col =
        ([{ type := .EOF, value := none, line := (lexStr q cs line (col + 1)).2.2.1,
            column := ((lexStr q cs line (col + 1)).2.2.2 : Int) }],
          [.unterminatedString (lexStr q cs line (col + 1)).2.2.1])) ∧
    (∀ cs line col fuel, peekCh cs ≠ '.' →
      lexLoop (fuel + 1) ('.' :: cs) line col =
        ((lexLoop fuel cs line (col + 1)).1,
          .unexpectedChar '.' line (col + 1) :: (lexLoop fuel cs line (col + 1)).2)) ∧
    tokenize "@ $ 'abc" =
      ([{ type := .EOF, value := none, line := 1, column := 9 }],
        [.unexpectedChar '@' 1 2, .unexpectedChar '$' 1 4, .unterminatedString 1]) ∧
    tokenize "x @ y" =
      ([{ type := .IDENTIFIER, value := some (.str "x"), line := 1, column := 1 },
        { type := .IDENTIFIER, value := some (.str "y"), line := 1, column := 5 },
        { type := .EOF, value := none, line := 1, column := 6 }],
        [.unexpectedChar '@' 1 4]) :=
  ⟨fun c h fuel cs line col => lexLoop_skips_fault c h fuel cs line col,
   fun q cs line col fuel hq h => lexLoop_skips_unterminated q cs line col fuel hq h,
   fun cs line col fuel hp => lexLoop_skips_lone_dot cs line col fuel hp,
   rfl, rfl⟩

/-- C8, witness: the general parts of `c8_faults_are_skipped` instantiated
at the fault character `@` and at the unterminated string `'ab`. -/
theorem c8_faults_are_skipped_witness :
    (isFaultChar '@' = true ∧
      lexLoop 1 ['@'] 1 1 =
        ((lexLoop 0 [] 1 2).1, .unexpectedChar '@' 1 2 :: (lexLoop 0 [] 1 2).2)) ∧
    ((lexStr '\'' ['a', 'b'] 1 2).1 = none ∧
      lexLoop 3 ['\'', 'a', 'b'] 1 1 =
        ([{ type := .EOF, value := none, line := (lexStr '\'' ['a', 'b'] 1 2).2.2.1,
            column := ((lexStr '\'' ['a', 'b'] 1 2).2.2.2 : Int) }],
          [.unterminatedString (lexStr '\'' ['a', 'b'] 1 2).2.2.1])) :=
  ⟨⟨by decide, c8_faults_are_skipped.1 '@' (by decide) 0 [] 1 1⟩,
   ⟨by decide, c8_faults_are_skipped.2.1 '\'' ['a', 'b'] 1 1 2 (Or.inr rfl) (by decide)⟩⟩

/-! ## Tokenization of the concrete programs used below

The token sequences of the concrete programs are established once, so later
theorems about the parser and analyzer can replace `tokenize` by its value
before reducing the parser (reduction of the parser over an unreduced
`tokenize` call repeats the lexer's work at every lookahead). -/

theorem toks_local_x_1 :
    (tokenize "local x = 1").1 =
      [{ type := .LOCAL, value := some (.str "local"), line := 1, column := 1 },
       { type := .IDENTIFIER, value := some (.str "x"), line := 1, column := 7 },
       { type := .ASSIGN, value := some (.str "="), line := 1, column := 9 },
       { type := .NUMBER, value := some (.intVal 1), line := 1, column := 11 },
       { type := .EOF, value := none, line := 1, column := 12 }] := rfl

theorem toks_x_1 :
    (tokenize "x = 1").1 =
      [{ type := .IDENTIFIER, value := some (.str "x"), line := 1, column := 1 },
       { type := .ASSIGN, value := some (.str "="), line := 1, column := 3 },
       { type := .NUMBER, value := some (.intVal 1), line := 1, column := 5 },
       { type := .EOF, value := none, line := 1, column := 6 }] := rfl

theorem toks_bare_return :
    (tokenize "return").1 =
      [{ type := .RETURN, value := some (.str "return"), line := 1, column := 1 },
       { type := .EOF, value := none, line := 1, column := 7 }] := rfl

theorem toks_return_semicolon :
    (tokenize "return;").1 =
      [{ type := .RETURN, value := some (.str "return"), line := 1, column := 1 },
       { type := .SEMICOLON, value := some (.str ";"), line := 1, column := 7 },
       { type := .EOF, value := none, line := 1, column := 8 }] := rfl

theorem toks_f_return_end :
    (tokenize "function f() return end").1 =
      [{ type := .FUNCTION, value := some (.str "function"), line := 1, column := 1 },
       { type := .IDENTIFIER, value := some (.str "f"), line := 1, column := 10 },
       { type := .LPAREN, value := some (.str "("), line := 1, column := 11 },
       { type := .RPAREN, value := some (.str ")"), line := 1, column := 12 },
       { type := .RETURN, value := some (.str "return"), line := 1, column := 14 },
       { type := .END, value := some (.str "end"), line := 1, column := 21 },
       { type := .EOF, value := none, line := 1, column := 24 }] := rfl

theorem toks_f_dup_params :
    (tokenize "function f(a, a) end").1 =
      [{ type := .FUNCTION, value := some (.str "function"), line := 1, column := 1 },
       { type := .IDENTIFIER, value := some (.str "f"), line := 1, column := 10 },
       { type := .LPAREN, value := some (.str "("), line := 1, column := 11 },
       { type := .IDENTIFIER, value := some (.str "a"), line := 1, column := 12 },
       { type := .COMMA, value := some (.str ","), line := 1, column := 13 },
       { type := .IDENTIFIER, value := some (.str "a"), line := 1, column := 15 },
       { type := .RPAREN, value := some (.str ")"), line := 1, column := 16 },
       { type := .END, value := some (.str "end"), line := 1, column := 18 },
       { type := .EOF, value := none, line := 1, column := 21 }] := rfl

theorem toks_if_then_print :
    (tokenize "if 1 < 2 then y = 1 end print(y)").1 =
      [{ type := .IF, value := some (.str "if"), line := 1, column := 1 },
       { type := .NUMBER, value := some (.intVal 1), line := 1, column := 4 },
       { type := .LESS, value := some (.str "<"), line := 1, column := 6 },
       { type := .NUMBER, value := some (.intVal 2), line := 1, column := 8 },
       { type := .THEN, value := some (.str "then"), line := 1, column := 10 },
       { type := .IDENTIFIER, value := some (.str "y"), line := 1, column := 15 },
       { type := .ASSIGN, value := some (.str "="), line := 1, column := 17 },
       { type := .NUMBER, value := some (.intVal 1), line := 1, column := 19 },
       { type := .END, value := some (.str "end"), line := 1, column := 21 },
       { type := .IDENTIFIER, value := some (.str "print"), line := 1, column := 25 },
       { type := .LPAREN, value := some (.str "("), line := 1, column := 30 },
       { type := .IDENTIFIER, value := some (.str "y"), line := 1, column := 31 },
       { type := .RPAREN, value := some (.str ")"), line := 1, column := 32 },
       { type := .EOF, value := none, line := 1, column := 33 }] := rfl

theorem toks_arity_example :
    (tokenize "function f(a, b) return a end f(1)").1 =
      [{ type := .FUNCTION, value := some (.str "function"), line := 1, column := 1 },
       { type := .IDENTIFIER, value := some (.str "f"), line := 1, column := 10 },
       { type := .LPAREN, value := some (.str "("), line := 1, column := 11 },
       { type := .IDENTIFIER, value := some (.str "a"), line := 1, column := 12 },
       { type := .COMMA, value := some (.str ","), line := 1, column := 13 },
       { type := .IDENTIFIER, value := some (.str "b"), line := 1, column := 15 },
       { type := .RPAREN, value := some (.str ")"), line := 1, column := 16 },
       { type := .RETURN, value := some (.str "return"), line := 1, column := 18 },
       { type := .IDENTIFIER, value := some (.str "a"), line := 1, column := 25 },
       { type := .END, value := some (.str "end"), line := 1, column := 27 },
       { type := .IDENTIFIER, value := some (.str "f"), line := 1, column := 31 },
       { type := .LPAREN, value := some (.str "("), line := 1, column := 32 },
       { type := .NUMBER, value := some (.intVal 1), line := 1, column := 33 },
       { type := .RPAREN, value := some (.str ")"), line := 1, column := 34 },
       { type := .EOF, value := none, line := 1, column := 35 }] := rfl

/-! ## Parse trees of the concrete programs used below -/

theorem parse_local_x_1 :
    pipeline "local x = 1" = .ok (.block [.assign "x" (.num (.intVal 1))]) := by
  unfold pipeline
  rw [toks_local_x_1]
  rfl

theorem parse_x_1 :
    pipeline "x = 1" = .ok (.block [.assign "x" (.num (.intVal 1))]) := by
  unfold pipeline
  rw [toks_x_1]
  rfl

theorem parse_f_dup_params :
    pipeline "function f(a, a) end" = .ok (.block [.func "f" ["a", "a"] (.block [])]) := by
  unfold pipeline
  rw [toks_f_dup_params]
  rfl

theorem parse_if_then_print :
    pipeline "if 1 < 2 then y = 1 end print(y)" =
      .ok (.block
        [.ifn (.binop (.num (.intVal 1))
            { type := .LESS, value := some (.str "<"), line := 1, column := 6 }
            (.num (.intVal 2)))
          (.block [.assign "y" (.num (.intVal 1))]) none,
         .call "print" [.var "y"]]) := by
  unfold pipeline
  rw [toks_if_then_print]
  rfl

theorem parse_arity_example :
    pipeline "function f(a, b) return a end f(1)" =
      .ok (.block
        [.func "f" ["a", "b"] (.block [.ret (some (.var "a"))]),
         .call "f" [.num (.intVal 1)]]) := by
  unfold pipeline
  rw [toks_arity_example]
  rfl

/-! ## Claim C3 -/

/-- C3, counterexample: `local x = 1` and `x = 1` parse to the SAME tree, so
the two forms are not distinguishable from the AST.  `AssignmentNode` stores
only the target name and the value; no `isLocalDeclaration` flag exists in
`syntaxtree.py`, and `parse_assignment` passes only two arguments. -/
theorem c3_local_flag_counterexample :
    pipeline "local x = 1" = pipeline "x = 1" ∧
    pipeline "local x = 1" = .ok (.block [.assign "x" (.num (.intVal 1))]) :=
  ⟨parse_local_x_1.trans parse_x_1.symm, parse_local_x_1⟩

/-- Inversion for a successful `Except` bind. -/
theorem exBind_eq_ok {α β ε : Type} {x : Except ε α} {g : α → Except ε β} {b : β}
    (h : x >>= g = .ok b) : ∃ a, x = .ok a ∧ g a = .ok b := by
  cases x with
  | ok a => exact ⟨a, rfl, h⟩
  | error e =>
    simp only [bind, Except.bind] at h
    exact absurd h (by simp)

/-- C3 (amended): every successfully parsed assignment statement produces an
Assignment node, which records exactly a target name and a value expression
(the constructor `Ast.assign`, mirroring `AssignmentNode.__init__`, has no
further field); in particular `local x = e` and `x = e` parse to identical,
indistinguishable nodes. -/
theorem c3_assignment_node_shape :
    (∀ f p a q, parseAssignment f p = .ok (a, q) → ∃ name v, a = .assign name v) ∧
    pipeline "local x = 1" = .ok (.block [.assign "x" (.num (.intVal 1))]) ∧
    pipeline "x = 1" = .ok (.block [.assign "x" (.num (.intVal 1))]) := by
  refine ⟨?_, parse_local_x_1, parse_x_1⟩
  intro f p a q h
  match f with
  | 0 => exact absurd h (by simp [parseAssignment])
  | f + 1 =>
    simp only [parseAssignment] at h
    split at h
    · obtain ⟨w1, _, h⟩ := exBind_eq_ok h
      obtain ⟨w2, _, h⟩ := exBind_eq_ok h
      obtain ⟨w3, _, h⟩ := exBind_eq_ok h
      obtain ⟨w4, _, h⟩ := exBind_eq_ok h
      simp only [Except.ok.injEq, Prod.mk.injEq] at h
      exact ⟨_, _, h.1.symm⟩
    · obtain ⟨w1, _, h⟩ := exBind_eq_ok h
      obtain ⟨w2, _, h⟩ := exBind_eq_ok h
      obtain ⟨w3, _, h⟩ := exBind_eq_ok h
      simp only [Except.ok.injEq, Prod.mk.injEq] at h
      exact ⟨_, _, h.1.symm⟩

/-- C3 (amended), witness: a concrete successful `parse_assignment` run,
fed to the general shape statement. -/
theorem c3_assignment_node_shape_witness :
    (parseAssignment 9
        { tokens := [{ type := .IDENTIFIER, value := some (.str "x"), line := 1, column := 1 },
                     { type := .ASSIGN, value := some (.str "="), line := 1, column := 3 },
                     { type := .NUMBER, value := some (.intVal 1), line := 1, column := 5 },
                     { type := .EOF, value := none, line := 1, column := 6 }],
          current := 0 } =
      .ok (.assign "x" (.num (.intVal 1)),
        { tokens := [{ type := .IDENTIFIER, value := some (.str "x"), line := 1, column := 1 },
                     { type := .ASSIGN, value := some (.str "="), line := 1, column := 3 },
                     { type := .NUMBER, value := some (.intVal 1), line := 1, column := 5 },
                     { type := .EOF, value := none, line := 1, column := 6 }],
          current := 3 })) ∧
    ∃ name v, (Ast.assign "x" (.num (.intVal 1))) = .assign name v :=
  ⟨rfl, c3_assignment_node_shape.1 9
    { tokens := [{ type := .IDENTIFIER, value := some (.str "x"), line := 1, column := 1 },
                     { type := .ASSIGN, value := some (.str "="), line := 1, column := 3 },
                     { type := .NUMBER, value := some (.intVal 1), line := 1, column := 5 },
                     { type := .EOF, value := none, line := 1, column := 6 }],
      current := 0 }
    (.assign "x" (.num (.intVal 1)))
    { tokens := [{ type := .IDENTIFIER, value := some (.str "x"), line := 1, column := 1 },
                     { type := .ASSIGN, value := some (.str "="), line := 1, column := 3 },
                     { type := .NUMBER, value := some (.intVal 1), line := 1, column := 5 },
                     { type := .EOF, value := none, line := 1, column := 6 }],
      current := 3 }
    rfl⟩

/-! ## Claim C9 -/

/-- C9: the expression of a parsed return statement is only optional when
the NEXT token is `end` or `else`.  A bare `return` directly before end of
input fails with `Unexpected token` on the end-of-input token (`check`
returns false at end of input, so the parser goes looking for an
expression), and `return ;` fails on the semicolon, although the grammar
comment in `syntaxtree.py` (`<return_stmt> ::= "return" [<expr>]`) and the
optional-semicolon consumption in `parse_return_statement` admit both; a
`return` before `end` does produce a valueless Return node. -/
theorem c9_bare_return_evaluations :
    pipeline "return" =
      .error (.unexpectedToken { type := .EOF, value := none, line := 1, column := 7 }) ∧
    pipeline "return;" =
      .error (.unexpectedToken
        { type := .SEMICOLON, value := some (.str ";"), line := 1, column := 7 }) ∧
    pipeline "function f() return end" =
      .ok (.block [.func "f" [] (.block [.ret none])]) := by
  refine ⟨?_, ?_, ?_⟩
  · unfold pipeline
    rw [toks_bare_return]
    rfl
  · unfold pipeline
    rw [toks_return_semicolon]
    rfl
  · unfold pipeline
    rw [toks_f_return_end]
    rfl

/-! ## Claim C4 -/

/-- When no scope level knows the name, declaring it into the current scope
cannot hit the duplicate check: it is the plain insertion. -/
theorem lookupVar_none_declare (fs : List Frame) (name : String) (ty : Option Ty)
    (h : lookupVar fs name = none) :
    declareVarHead fs name ty = .ok (insertVarHead fs name ty) := by
  cases fs with
  | nil => rfl
  | cons fr rs =>
    simp only [lookupVar] at h
    cases hl : List.lookup name fr.vars with
    | some v => rw [hl] at h; simp at h
    | none =>
      simp [declareVarHead, declareVarFrame, insertVarHead, hl, bind, Except.bind]

/-- C4: analyzing an Assignment first obtains the right-hand expression's
type; when the target is unknown at every scope level it is declared in the
current (innermost) scope with that type, and when it is already declared at
any level the state — in particular the recorded type — is left entirely
unchanged; either way the Assignment's analysis yields the expression's
type. -/
theorem c4_assignment_semantics (f : Nat) (name : String) (v : Ast) (st st1 : ASt)
    (exprTy : Option Ty) (h : analyzeNode f v st = .ok (exprTy, st1)) :
    analyzeNode (f + 1) (.assign name v) st =
      match lookupVar st1.frames name with
      | some _ => .ok (exprTy, st1)
      | none => .ok (exprTy, { st1 with frames := insertVarHead st1.frames name exprTy }) := by
  simp only [analyzeNode]
  rw [h]
  simp only [bind, Except.bind]
  cases hl : lookupVar st1.frames name with
  | some w => rfl
  | none => rw [lookupVar_none_declare st1.frames name exprTy hl]

/-- C4, witness: first assignment of `x = 10` from the initial state
declares `x : number` in the innermost scope and yields `number`. -/
theorem c4_assignment_semantics_witness :
    analyzeNode 1 (.num (.intVal 10)) initState = .ok (some .number, initState) ∧
    analyzeNode 2 (.assign "x" (.num (.intVal 10))) initState =
      .ok (some .number,
        { frames := [{ vars := [("x", some .number)],
                       funcs := [("print", (1, [Ty.any], none))] }],
          currentFunction := none }) :=
  ⟨rfl, (c4_assignment_semantics 1 "x" (.num (.intVal 10)) initState initState
    (some .number) rfl).trans rfl⟩

/-! ## Claim C5 -/

/-- C5: with both operands analyzed (left first, then right), `..` yields
string for all operand types and never raises, the four arithmetic
operators yield number exactly when both operand types are `number` and
otherwise raise the mismatch error carrying the two operand types and the
operator token's line and column, and the five comparison operators yield
boolean for all operand types. -/
theorem c5_binop_rules (f : Nat) (l r : Ast) (op : Token) (st st1 st2 : ASt)
    (leftTy rightTy : Option Ty)
    (hl : analyzeNode f l st = .ok (leftTy, st1))
    (hr : analyzeNode f r st1 = .ok (rightTy, st2)) :
    (op.type = .DOTDOT →
      analyzeNode (f + 1) (.binop l op r) st = .ok (some .string, st2)) ∧
    ((op.type = .PLUS ∨ op.type = .MINUS ∨ op.type = .STAR ∨ op.type = .SLASH) →
      analyzeNode (f + 1) (.binop l op r) st =
        if leftTy = some .number ∧ rightTy = some .number then .ok (some .number, st2)
        else .error (.arithTypeMismatch leftTy rightTy op.line op.column)) ∧
    ((op.type = .EQUAL_EQUAL ∨ op.type = .GREATER ∨ op.type = .GREATER_EQUAL ∨
        op.type = .LESS ∨ op.type = .LESS_EQUAL) →
      analyzeNode (f + 1) (.binop l op r) st = .ok (some .boolean, st2)) := by
  have hbase : analyzeNode (f + 1) (.binop l op r) st =
      (if op.type = .DOTDOT then .ok (some .string, st2)
       else if isArithOp op.type = true then
         if leftTy ≠ some .number ∨ rightTy ≠ some .number then
           .error (.arithTypeMismatch leftTy rightTy op.line op.column)
         else .ok (some .number, st2)
       else .ok (some .boolean, st2)) := by
    simp only [analyzeNode]
    rw [hl]
    simp only [bind, Except.bind]
    rw [hr]
  refine ⟨?_, ?_, ?_⟩
  · intro hop
    rw [hbase, if_pos hop]
  · intro hop
    have hnd : op.type ≠ .DOTDOT := by rcases hop with h | h | h | h <;> rw [h] <;> decide
    have har : isArithOp op.type = true := by rcases hop with h | h | h | h <;> rw [h] <;> rfl
    rw [hbase, if_neg hnd, if_pos har]
    by_cases h1 : leftTy = some .number <;> by_cases h2 : rightTy = some .number <;>
      simp [h1, h2]
  · intro hop
    have hnd : op.type ≠ .DOTDOT := by
      rcases hop with h | h | h | h | h <;> rw [h] <;> decide
    have har : isArithOp op.type = false := by
      rcases hop with h | h | h | h | h <;> rw [h] <;> rfl
    rw [hbase, if_neg hnd, if_neg (by simp [har])]

/-- C5, witness: the spec's own examples from the initial state.
`1 .. "a"` yields string and raises nothing, `1 + "a"` raises the mismatch
naming `number`, `string` and the `+` token's position, and `1 < 2` yields
boolean. -/
theorem c5_binop_rules_witness :
    analyzeNode 2 (.binop (.num (.intVal 1))
        { type := .DOTDOT, value := some (.str ".."), line := 1, column := 3 }
        (.str "a")) initState = .ok (some .string, initState) ∧
    analyzeNode 2 (.binop (.num (.intVal 1))
        { type := .PLUS, value := some (.str "+"), line := 1, column := 13 }
        (.str "a")) initState =
      .error (.arithTypeMismatch (some .number) (some .string) 1 13) ∧
    analyzeNode 2 (.binop (.num (.intVal 1))
        { type := .LESS, value := some (.str "<"), line := 1, column := 3 }
        (.num (.intVal 2))) initState = .ok (some .boolean, initState) := by
  refine ⟨?_, ?_, ?_⟩
  · exact (c5_binop_rules 1 (.num (.intVal 1)) (.str "a")
      { type := .DOTDOT, value := some (.str ".."), line := 1, column := 3 }
      initState initState initState (some .number) (some .string) rfl rfl).1 rfl
  · exact ((c5_binop_rules 1 (.num (.intVal 1)) (.str "a")
      { type := .PLUS, value := some (.str "+"), line := 1, column := 13 }
      initState initState initState (some .number) (some .string) rfl rfl).2.1
        (Or.inl rfl)).trans (by simp)
  · exact (c5_binop_rules 1 (.num (.intVal 1)) (.num (.intVal 2))
      { type := .LESS, value := some (.str "<"), line := 1, column := 3 }
      initState initState initState (some .number) (some .number) rfl rfl).2.2
        (Or.inr (Or.inr (Or.inr (Or.inl rfl))))

/-! ## Claim C6 -/

/-- C6: for a Call whose callee is found in the scope chain, an argument
count different from the declared arity raises the arity error carrying the
expected and actual counts (before any argument is analyzed); with matching
counts every argument is analyzed for well-formedness, the declared
parameter types are never consulted (the conclusion does not depend on
`paramTys`), and the call yields the registered return type, or `any` when
none was registered.  The concrete run is the spec's own example:
`function f(a, b) return a end` followed by `f(1)` fails stating expected
2, got 1. -/
theorem c6_call_rules (f : Nat) (name : String) (args : List Ast) (st : ASt)
    (paramCount : Nat) (paramTys : List Ty) (retTy : Option Ty)
    (h : lookupFun st.frames name = some (paramCount, paramTys, retTy)) :
    (args.length ≠ paramCount →
      analyzeNode (f + 1) (.call name args) st =
        .error (.arityMismatch name paramCount args.length)) ∧
    (args.length = paramCount → ∀ st', analyzeSeq f args st = .ok st' →
      analyzeNode (f + 1) (.call name args) st = .ok (some (retTy.getD .any), st')) ∧
    analyzeSource "function f(a, b) return a end f(1)" =
      some (.error (.arityMismatch "f" 2 1)) := by
  refine ⟨?_, ?_, ?_⟩
  · intro hne
    simp only [analyzeNode]
    rw [h]
    simp only [if_pos hne]
  · intro heq st' hseq
    simp only [analyzeNode]
    rw [h]
    dsimp only
    rw [if_neg (by simp [heq])]
    rw [hseq]
    rfl
  · unfold analyzeSource
    rw [parse_arity_example]
    rfl

/-- C6, witness: the arity branch applied at a state in which `f` is
registered with arity 2, called with one argument. -/
theorem c6_call_rules_witness :
    lookupFun
      [⟨[], [("print", (1, [Ty.any], none)), ("f", (2, [Ty.any, Ty.any], some Ty.any))]⟩]
      "f" = some (2, [Ty.any, Ty.any], some Ty.any) ∧
    analyzeNode 9 (.call "f" [.num (.intVal 1)])
      ⟨[⟨[], [("print", (1, [Ty.any], none)), ("f", (2, [Ty.any, Ty.any], some Ty.any))]⟩],
        none⟩ =
      .error (.arityMismatch "f" 2 1) :=
  ⟨rfl,
    (c6_call_rules 8 "f" [.num (.intVal 1)]
      ⟨[⟨[], [("print", (1, [Ty.any], none)), ("f", (2, [Ty.any, Ty.any], some Ty.any))]⟩],
        none⟩
      2 [Ty.any, Ty.any] (some Ty.any) rfl).1 (by decide)⟩

/-! ## Scope discipline (for claim C7)

Every analysis step only rewrites the innermost frame of the chain it was
started in: pushed frames are popped again, the tail frames and the current
function name are restored.  This is the formal content of `Block`'s (and
`FunctionNode`'s) push/restore discipline in `semantic.py`. -/

theorem declareVarHead_shape (h0 : Frame) (t : List Frame) (name : String) (ty : Option Ty)
    (fs : List Frame) (h : declareVarHead (h0 :: t) name ty = .ok fs) :
    ∃ h', fs = h' :: t := by
  by_cases hl : (List.lookup name h0.vars).isSome
  · simp [declareVarHead, declareVarFrame, hl, bind, Except.bind] at h
  · simp [declareVarHead, declareVarFrame, hl, bind, Except.bind] at h
    exact ⟨_, h.symm⟩

theorem declareFunHead_shape (h0 : Frame) (t : List Frame) (name : String) (info : FuncInfo)
    (fs : List Frame) (h : declareFunHead (h0 :: t) name info = .ok fs) :
    ∃ h', fs = h' :: t := by
  by_cases hl : (List.lookup name h0.funcs).isSome
  · simp [declareFunHead, hl] at h
  · simp [declareFunHead, hl] at h
    exact ⟨_, h.symm⟩

theorem frames_shape (fuel : Nat) :
    (∀ node h0 t cf res st',
      analyzeNode fuel node ⟨h0 :: t, cf⟩ = .ok (res, st') →
        ∃ h', st' = ⟨h' :: t, cf⟩) ∧
    (∀ l h0 t cf st',
      analyzeSeq fuel l ⟨h0 :: t, cf⟩ = .ok st' → ∃ h', st' = ⟨h' :: t, cf⟩) ∧
    (∀ l acc h0 t cf res st',
      scanReturns fuel l acc ⟨h0 :: t, cf⟩ = .ok (res, st') →
        ∃ h', st' = ⟨h' :: t, cf⟩) := by
  induction fuel with
  | zero =>
    exact ⟨fun node h0 t cf res st' h => absurd h (by simp [analyzeNode]),
      fun l h0 t cf st' h => absurd h (by simp [analyzeSeq]),
      fun l acc h0 t cf res st' h => absurd h (by simp [scanReturns])⟩
  | succ f ih =>
    obtain ⟨ihN, ihS, ihR⟩ := ih
    refine ⟨?_, ?_, ?_⟩
    · intro node h0 t cf res st' h
      cases node with
      | num val =>
        simp only [analyzeNode, Except.ok.injEq, Prod.mk.injEq] at h
        exact ⟨h0, h.2.symm⟩
      | str val =>
        simp only [analyzeNode, Except.ok.injEq, Prod.mk.injEq] at h
        exact ⟨h0, h.2.symm⟩
      | var name =>
        simp only [analyzeNode] at h
        split at h
        · simp only [Except.ok.injEq, Prod.mk.injEq] at h
          exact ⟨h0, h.2.symm⟩
        · simp at h
      | binop l op r =>
        simp only [analyzeNode] at h
        obtain ⟨⟨lt, st1⟩, h1, h⟩ := exBind_eq_ok h
        obtain ⟨g1, rfl⟩ := ihN l h0 t cf lt st1 h1
        try dsimp only at h
        obtain ⟨⟨rt, st2⟩, h2, h⟩ := exBind_eq_ok h
        obtain ⟨g2, rfl⟩ := ihN r g1 t cf rt st2 h2
        try dsimp only at h
        split at h
        · simp only [Except.ok.injEq, Prod.mk.injEq] at h
          exact ⟨g2, h.2.symm⟩
        · split at h
          · split at h
            · simp at h
            · simp only [Except.ok.injEq, Prod.mk.injEq] at h
              exact ⟨g2, h.2.symm⟩
          · simp only [Except.ok.injEq, Prod.mk.injEq] at h
            exact ⟨g2, h.2.symm⟩
      | assign name val =>
        simp only [analyzeNode] at h
        obtain ⟨⟨ety, st1⟩, h1, h⟩ := exBind_eq_ok h
        obtain ⟨g1, rfl⟩ := ihN val h0 t cf ety st1 h1
        try dsimp only at h
        split at h
        · simp only [Except.ok.injEq, Prod.mk.injEq] at h
          exact ⟨g1, h.2.symm⟩
        · obtain ⟨fs, hd, h⟩ := exBind_eq_ok h
          obtain ⟨g2, rfl⟩ := declareVarHead_shape g1 t name ety fs hd
          simp only [Except.ok.injEq, Prod.mk.injEq] at h
          exact ⟨g2, h.2.symm⟩
      | ifn cond thenB elseB =>
        simp only [analyzeNode] at h
        obtain ⟨⟨cty, st1⟩, h1, h⟩ := exBind_eq_ok h
        obtain ⟨g1, rfl⟩ := ihN cond h0 t cf cty st1 h1
        try dsimp only at h
        split at h
        · simp at h
        · obtain ⟨⟨w2, st2⟩, h2, h⟩ := exBind_eq_ok h
          obtain ⟨g2, rfl⟩ := ihN thenB g1 t cf w2 st2 h2
          try dsimp only at h
          cases elseB with
          | none =>
            simp only [Except.ok.injEq, Prod.mk.injEq] at h
            exact ⟨g2, h.2.symm⟩
          | some eb =>
            obtain ⟨⟨w3, st3⟩, h3, h⟩ := exBind_eq_ok h
            obtain ⟨g3, rfl⟩ := ihN eb g2 t cf w3 st3 h3
            simp only [Except.ok.injEq, Prod.mk.injEq] at h
            exact ⟨g3, h.2.symm⟩
      | whl cond body =>
        simp only [analyzeNode] at h
        obtain ⟨⟨cty, st1⟩, h1, h⟩ := exBind_eq_ok h
        obtain ⟨g1, rfl⟩ := ihN cond h0 t cf cty st1 h1
        try dsimp only at h
        split at h
        · simp at h
        · obtain ⟨⟨w2, st2⟩, h2, h⟩ := exBind_eq_ok h
          obtain ⟨g2, rfl⟩ := ihN body g1 t cf w2 st2 h2
          simp only [Except.ok.injEq, Prod.mk.injEq] at h
          exact ⟨g2, h.2.symm⟩
      | func name params body =>
        simp only [analyzeNode] at h
        obtain ⟨pf, hp, h⟩ := exBind_eq_ok h
        try dsimp only at h
        obtain ⟨⟨rty, st2⟩, hscan, h⟩ := exBind_eq_ok h
        obtain ⟨p2, rfl⟩ := ihR (bodyStmts body) none pf (h0 :: t) (some name) rty st2 hscan
        try dsimp only at h
        obtain ⟨outer', hdf, h⟩ := exBind_eq_ok h
        obtain ⟨g2, rfl⟩ := declareFunHead_shape h0 t name
          (params.length, params.map (fun _ => Ty.any), rty) outer' hdf
        obtain ⟨⟨w3, st3⟩, hb, h⟩ := exBind_eq_ok h
        obtain ⟨p3, rfl⟩ := ihN body p2 (g2 :: t) (some name) w3 st3 hb
        simp only [Except.ok.injEq, Prod.mk.injEq] at h
        exact ⟨g2, h.2.symm⟩
      | call name args =>
        simp only [analyzeNode] at h
        split at h
        · simp at h
        · split at h
          · simp at h
          · obtain ⟨st1, hs, h⟩ := exBind_eq_ok h
            obtain ⟨g1, rfl⟩ := ihS args h0 t cf st1 hs
            simp only [Except.ok.injEq, Prod.mk.injEq] at h
            exact ⟨g1, h.2.symm⟩
      | ret value =>
        simp only [analyzeNode] at h
        split at h
        · simp at h
        · cases value with
          | some e => exact ihN e h0 t cf res st' h
          | none =>
            simp only [Except.ok.injEq, Prod.mk.injEq] at h
            exact ⟨h0, h.2.symm⟩
      | block stmts =>
        simp only [analyzeNode] at h
        obtain ⟨st1, hs, h⟩ := exBind_eq_ok h
        obtain ⟨g1, rfl⟩ := ihS stmts emptyFrame (h0 :: t) cf st1 hs
        simp only [Except.ok.injEq, Prod.mk.injEq] at h
        exact ⟨h0, h.2.symm⟩
    · intro l h0 t cf st' h
      cases l with
      | nil =>
        simp only [analyzeSeq, Except.ok.injEq] at h
        exact ⟨h0, h.symm⟩
      | cons x xs =>
        simp only [analyzeSeq] at h
        obtain ⟨⟨w1, st1⟩, h1, h⟩ := exBind_eq_ok h
        obtain ⟨g1, rfl⟩ := ihN x h0 t cf w1 st1 h1
        exact ihS xs g1 t cf st' h
    · intro l acc h0 t cf res st' h
      cases l with
      | nil =>
        simp only [scanReturns, Except.ok.injEq, Prod.mk.injEq] at h
        exact ⟨h0, h.2.symm⟩
      | cons s rest =>
        simp only [scanReturns] at h
        split at h
        · obtain ⟨⟨ty1, st1⟩, h1, h⟩ := exBind_eq_ok h
          obtain ⟨g1, rfl⟩ := ihN _ h0 t cf ty1 st1 h1
          exact ihR rest ty1 g1 t cf res st' h
        · exact ihR rest acc h0 t cf res st' h

/-! ## Claim C7 -/

/-- C7: analyzing a Block pushes a fresh child scope, analyzes the
statements in order there, and restores the previous scope: a successful
Block analysis returns no type and a state EQUAL to the one it started in,
so nothing first declared inside the block survives it.  Concretely,
analyzing `if 1 < 2 then y = 1 end print(y)` fails with the undefined
variable error for `y`: the `y` declared in the then-branch's scope is gone
when `print(y)` is analyzed. -/
theorem c7_block_scope_restored :
    (∀ fuel stmts st res st',
      analyzeNode fuel (.block stmts) st = .ok (res, st') → res = none ∧ st' = st) ∧
    analyzeSource "if 1 < 2 then y = 1 end print(y)" =
      some (.error (.undefinedVariable "y")) := by
  constructor
  · intro fuel stmts st res st' h
    match fuel with
    | 0 => exact absurd h (by simp [analyzeNode])
    | f + 1 =>
      obtain ⟨fs, cf⟩ := st
      simp only [analyzeNode] at h
      obtain ⟨st1, hs, h⟩ := exBind_eq_ok h
      obtain ⟨g1, rfl⟩ := (frames_shape f).2.1 stmts emptyFrame fs cf st1 hs
      simp only [Except.ok.injEq, Prod.mk.injEq] at h
      exact ⟨h.1.symm, h.2.symm⟩
  · unfold analyzeSource
    rw [parse_if_then_print]
    rfl

/-- C7, witness: a concrete block declaring `y` analyzes successfully and,
by the general statement, restores the initial state exactly. -/
theorem c7_block_scope_restored_witness :
    analyzeNode 4 (.block [.assign "y" (.num (.intVal 1))]) initState = .ok (none, initState) ∧
    ((none : Option Ty) = none ∧ initState = initState) :=
  ⟨rfl, c7_block_scope_restored.1 4 [.assign "y" (.num (.intVal 1))] initState none initState rfl⟩

/-! ## Claim C10 -/



theorem lookup_append_isSome {β : Type} (a : String) (l m : List (String × β)) :
    (List.lookup a (l ++ m)).isSome = ((List.lookup a l).isSome || (List.lookup a m).isSome) := by
  induction l with
  | nil => simp [List.lookup]
  | cons kv l ih =>
    obtain ⟨k, v⟩ := kv
    simp only [List.cons_append, List.lookup]
    cases hab : a == k <;> simp [ih]

/-- Declaring the parameter list one by one fails with the duplicate-variable
error on the first name that is already known. -/
theorem declareParams_dup (ps : List String) (fr : Frame) (seen : List String)
    (hk : ∀ x, (List.lookup x fr.vars).isSome ↔ x ∈ seen) (d : String)
    (hd : firstDupFrom seen ps = some d) :
    declareParams ps fr = .error (.duplicateVariable d) := by
  induction ps generalizing fr seen with
  | nil => simp [firstDupFrom] at hd
  | cons p ps ih =>
    simp only [firstDupFrom] at hd
    by_cases hp : p ∈ seen
    · rw [if_pos hp] at hd
      cases hd
      have hin : (List.lookup d fr.vars).isSome = true := (hk d).2 hp
      simp [declareParams, declareVarFrame, hin, bind, Except.bind]
    · rw [if_neg hp] at hd
      have hout : ¬(List.lookup p fr.vars).isSome = true := fun hc => hp ((hk p).1 hc)
      have hk' : ∀ x,
          (List.lookup x (fr.vars ++ [(p, some Ty.any)])).isSome ↔ x ∈ p :: seen := by
        intro x
        rw [lookup_append_isSome]
        simp only [Bool.or_eq_true, hk x, List.lookup, List.mem_cons]
        cases hxp : x == p <;> simp_all [or_comm]
      simp only [declareParams, declareVarFrame, bind, Except.bind]
      rw [if_neg hout]
      exact ih { fr with vars := fr.vars ++ [(p, some Ty.any)] } (p :: seen) hk' hd

theorem firstDupFrom_isSome (ps : List String) (seen : List String) :
    (firstDupFrom seen ps).isSome ↔ ¬(ps.Nodup ∧ ∀ x ∈ ps, x ∉ seen) := by
  induction ps generalizing seen with
  | nil => simp [firstDupFrom]
  | cons p ps ih =>
    simp only [firstDupFrom]
    by_cases hp : p ∈ seen
    · rw [if_pos hp]
      simp only [Option.isSome_some, true_iff]
      intro hcon
      exact hcon.2 p (List.mem_cons_self p ps) hp
    · rw [if_neg hp]
      rw [ih]
      apply not_congr
      simp only [List.nodup_cons, List.forall_mem_cons, List.mem_cons, not_or,
        or_imp, forall_and, forall_eq]
      constructor
      · rintro ⟨hnod, hne, hout⟩
        exact ⟨⟨fun hm => hne p hm rfl, hnod⟩, hp, hout⟩
      · rintro ⟨⟨hpps, hnod⟩, _, hall⟩
        exact ⟨hnod, fun x hx he => hpps (he ▸ hx), hall⟩

theorem firstDup_isSome_iff (ps : List String) : (firstDup ps).isSome ↔ ¬ ps.Nodup := by
  unfold firstDup
  rw [firstDupFrom_isSome]
  simp

/-- C10: a parameter list that repeats a name (exactly when `firstDup`
returns one, i.e. exactly when the list is not duplicate-free) makes the
analysis of the FunctionDecl fail with the already-declared error for that
name, raised while the parameters are declared into the function's fresh
scope — before the body or even the function registration is looked at.
The grammar accepts such programs: `function f(a, a) end` parses fine. -/
theorem c10_duplicate_parameters :
    (∀ ps : List String, (firstDup ps).isSome ↔ ¬ ps.Nodup) ∧
    (∀ f name params body st d, firstDup params = some d →
      analyzeNode (f + 1) (.func name params body) st = .error (.duplicateVariable d)) ∧
    pipeline "function f(a, a) end" = .ok (.block [.func "f" ["a", "a"] (.block [])]) := by
  refine ⟨firstDup_isSome_iff, ?_, parse_f_dup_params⟩
  intro f name params body st d hd
  have hdp : declareParams params emptyFrame = .error (.duplicateVariable d) :=
    declareParams_dup params emptyFrame [] (by simp [emptyFrame]) d hd
  simp only [analyzeNode]
  rw [hdp]
  rfl

/-- C10, witness: `function f(a, a) end` analyzed from the initial state
fails with the duplicate error for `a`. -/
theorem c10_duplicate_parameters_witness :
    firstDup ["a", "a"] = some "a" ∧
    analyzeNode 1 (.func "f" ["a", "a"] (.block [])) initState =
      .error (.duplicateVariable "a") :=
  ⟨rfl, c10_duplicate_parameters.2.1 0 "f" ["a", "a"] (.block []) initState "a" rfl⟩

/-! ## Claim C1 -/


/-- C1 (amended): the return-type scan of the `FunctionNode` branch walks
only the DIRECT statement list, and each `Return` carrying a value
overwrites the previously recorded type, so the type registered for the
function is that of the LAST such `Return` (none when there is none) —
not the first, as claimed.  Statements other than direct valued Returns,
including nested `if`/`while` blocks with their own Returns, never
contribute: the result depends only on `directValuedReturns`. -/
theorem c1_return_type_scan (stmts : List Ast) (st : ASt) (tyOf : Ast → Option Ty)
    (h : ∀ v ∈ directValuedReturns stmts, ∀ g,
      analyzeNode (g + 1) v st = .ok (tyOf v, st)) :
    ∀ f acc, scanReturns (f + stmts.length + 1) stmts acc st =
      .ok ((((directValuedReturns stmts).getLast?).map tyOf).getD acc, st) := by
  induction stmts with
  | nil => intro f acc; simp [scanReturns, directValuedReturns]
  | cons s rest ih =>
    intro f acc
    have hlen : f + (s :: rest).length + 1 = (f + rest.length + 1) + 1 := by
      simp only [List.length_cons]
      omega
    rw [hlen]
    simp only [scanReturns]
    cases hr : retValue s with
    | some v =>
      dsimp only
      have hmem : v ∈ directValuedReturns (s :: rest) := by
        simp [directValuedReturns, List.filterMap_cons, hr]
      have hv := h v hmem (f + rest.length)
      rw [hv]
      simp only [bind, Except.bind]
      have hrest : ∀ w ∈ directValuedReturns rest, ∀ g,
          analyzeNode (g + 1) w st = .ok (tyOf w, st) := by
        intro w hw g
        refine h w ?_ g
        simp [directValuedReturns, List.filterMap_cons, hr]
        exact Or.inr (by simpa [directValuedReturns] using hw)
      rw [ih hrest f (tyOf v)]
      have hdvr : directValuedReturns (s :: rest) = v :: directValuedReturns rest := by
        simp [directValuedReturns, List.filterMap_cons, hr]
      rw [hdvr]
      cases hL : directValuedReturns rest with
      | nil => simp
      | cons w ws =>
        rw [List.getLast?_cons_cons]
        obtain ⟨u, hu⟩ := Option.isSome_iff_exists.1
          (List.getLast?_isSome.2 (by simp) : ((w :: ws).getLast?).isSome)
        rw [hu]
        rfl
    | none =>
      dsimp only
      have hdvr : directValuedReturns (s :: rest) = directValuedReturns rest := by
        simp [directValuedReturns, List.filterMap_cons, hr]
      have hrest : ∀ w ∈ directValuedReturns rest, ∀ g,
          analyzeNode (g + 1) w st = .ok (tyOf w, st) := by
        intro w hw g
        exact h w (hdvr ▸ hw) g
      rw [ih hrest f acc, hdvr]


/-- C1 (amended), witness: the scan over `return 1 return "a"` from the
initial state records `string`, the type of the LAST valued return. -/
theorem c1_return_type_scan_witness :
    (∀ v ∈ directValuedReturns [Ast.ret (some (.num (.intVal 1))), Ast.ret (some (.str "a"))],
      ∀ g, analyzeNode (g + 1) v initState = .ok (c1TyOf v, initState)) ∧
    scanReturns 3 [Ast.ret (some (.num (.intVal 1))), Ast.ret (some (.str "a"))] none initState =
      .ok (some Ty.string, initState) := by
  have hh : ∀ v ∈ directValuedReturns
      [Ast.ret (some (.num (.intVal 1))), Ast.ret (some (.str "a"))],
      ∀ g, analyzeNode (g + 1) v initState = .ok (c1TyOf v, initState) := by
    intro v hv g
    simp [directValuedReturns, retValue, List.filterMap_cons] at hv
    rcases hv with rfl | rfl <;> rfl
  exact ⟨hh, c1_return_type_scan
    [Ast.ret (some (.num (.intVal 1))), Ast.ret (some (.str "a"))] initState c1TyOf hh 0 none⟩

/-- C1, counterexample: for `function f() return 1 return "a" end` (two
direct valued Returns, the first of type number, the second of type string)
the registered return type is `string` — the type of the LAST direct valued
Return — contradicting the claim that the FIRST one is taken. -/
theorem c1_first_return_counterexample :
    analyzeNode 99
      (.func "f" [] (.block [.ret (some (.num (.intVal 1))), .ret (some (.str "a"))]))
      initState =
      .ok (none,
        ⟨[⟨[], [("print", (1, [Ty.any], none)), ("f", (0, [], some Ty.string))]⟩], none⟩) ∧
    lookupFun [⟨[], [("print", (1, [Ty.any], none)), ("f", (0, [], some Ty.string))]⟩] "f" =
      some (0, [], some Ty.string) ∧
    some Ty.string ≠ some Ty.number :=
  ⟨rfl, rfl, by decide⟩

end BasicLua
